import Mathlib

/-!
# KubeCube: effective pod resources, cluster synchronisation, fan-out aggregation

A shallow embedding of

* `pkg/apiserver/cubeapi/cluster/helper.go`
  (`podRequestsAndLimits`, `addResourceList`, `maxResourceList`,
  `makeMetadataInfo`, `makeLivedataInfo`, `makeClusterInfos`), and
* `pkg/multicluster/sync.go`
  (`OnClusterAdd`, `OnClusterUpdate`, `ReconcileCluster`),

followed by theorems about these definitions.

Conventions of the embedding.

* A Go `map[K]V` is an association list with pairwise distinct keys
  (`AList`); `m[k]` with the comma-ok form is `AList.lookup`, an assignment
  `m[k] = v` is `AList.insert`, and `for k, v := range m` is a left fold over
  the entries.  Every loop body below reads and writes the entry of the key it
  is visiting only, so the unspecified iteration order of Go maps does not
  show in the lookups of the result.
* `resource.Quantity` is an exact signed decimal number; it is represented by
  the integer count of its smallest unit.  `Add`, `Cmp` and `IsZero` are
  integer addition, comparison and the test against zero.
* Go functions returning `(value, error)` return a pair of the value and an
  `Option` error, so that a value returned next to an error stays visible.
* Calls that leave the process (store reads, registry lookups, listings on a
  member cluster) are answered by explicit environment records, and the calls
  issued are recorded, in order, in a trace returned next to the result.
-/

namespace KubeCube

/-! ## Resource lists -/

/-- The Go type `corev1.ResourceName`, a string. -/
abbrev ResourceName := String

/-- The Go type `resource.Quantity`: an exact decimal, as the integer count of
its smallest unit. -/
abbrev Quantity := Int

/-- The Go type `corev1.ResourceList`, that is `map[ResourceName]Quantity`. -/
abbrev ResourceList := AList (fun _ : ResourceName => Quantity)

/-- The Go index expression `list[name]` in its single-value form: the zero
quantity when the key is absent. -/
def quantityOf (list : ResourceList) (name : ResourceName) : Quantity :=
  (list.lookup name).getD 0

/-- The Go type `corev1.ResourceRequirements` (the two fields read here). -/
structure ResourceRequirements where
  Limits : ResourceList
  Requests : ResourceList

/-- The Go type `corev1.Container` (the fields read here). -/
structure Container where
  Name : String
  Resources : ResourceRequirements

/-- The Go type `corev1.PodSpec` (the fields read here); a nil `Overhead` map is
`none`. -/
structure PodSpec where
  InitContainers : List Container
  Containers : List Container
  NodeName : String
  Overhead : Option ResourceList

/-- The Go type `corev1.PodPhase`, a string. -/
abbrev PodPhase := String

def PodSucceeded : PodPhase := "Succeeded"

def PodFailed : PodPhase := "Failed"

/-- The Go type `corev1.PodStatus` (the field read here). -/
structure PodStatus where
  Phase : PodPhase

/-- The Go type `corev1.Pod` (the fields read here). -/
structure Pod where
  Name : String
  Spec : PodSpec
  Status : PodStatus

/-- Body of the loop of `addResourceList` for one entry of `new`. -/
def addResourceEntry (list : ResourceList) (name : ResourceName) (quantity : Quantity) :
    ResourceList :=
  match list.lookup name with
  | none => list.insert name quantity
  | some value => list.insert name (value + quantity)

/-- The function `addResourceList`: adds the resources in `new` to `list`. -/
def addResourceList (list new : ResourceList) : ResourceList :=
  new.foldl addResourceEntry list

/-- Body of the loop of `maxResourceList` for one entry of `new`. -/
def maxResourceEntry (list : ResourceList) (name : ResourceName) (quantity : Quantity) :
    ResourceList :=
  match list.lookup name with
  | none => list.insert name quantity
  | some value => if quantity > value then list.insert name quantity else list

/-- The function `maxResourceList`: sets `list` to the greater of `list` and
`new` for every resource of `new`. -/
def maxResourceList (list new : ResourceList) : ResourceList :=
  new.foldl maxResourceEntry list

/-- Body of the loop over `pod.Spec.Overhead` in `podRequestsAndLimits`: the
overhead is added to a limit that is present and not zero. -/
def addOverheadToLimit (limits : ResourceList) (name : ResourceName) (quantity : Quantity) :
    ResourceList :=
  match limits.lookup name with
  | some value => if value ≠ 0 then limits.insert name (value + quantity) else limits
  | none => limits

/-- The function `podRequestsAndLimits`: the pair `(reqs, limits)`. -/
def podRequestsAndLimits (pod : Pod) : ResourceList × ResourceList :=
  let start : ResourceList × ResourceList := (∅, ∅)
  let summed := pod.Spec.Containers.foldl
    (fun acc container =>
      (addResourceList acc.1 container.Resources.Requests,
       addResourceList acc.2 container.Resources.Limits)) start
  -- init containers define the minimum of any resource
  let raised := pod.Spec.InitContainers.foldl
    (fun acc container =>
      (maxResourceList acc.1 container.Resources.Requests,
       maxResourceList acc.2 container.Resources.Limits)) summed
  -- add overhead to the sum of requests and to non-zero limits
  match pod.Spec.Overhead with
  | none => raised
  | some overhead =>
    (addResourceList raised.1 overhead, overhead.foldl addOverheadToLimit raised.2)

/-! ### Vocabulary of the statements about `podRequestsAndLimits` -/

/-- Sum of the requests for `name` over a list of containers. -/
def sumRequests (cs : List Container) (name : ResourceName) : Quantity :=
  (cs.map (fun c => quantityOf c.Resources.Requests name)).sum

/-- Sum of the limits for `name` over a list of containers. -/
def sumLimits (cs : List Container) (name : ResourceName) : Quantity :=
  (cs.map (fun c => quantityOf c.Resources.Limits name)).sum

/-- Largest request for `name` of any single container of the list (zero for an
empty list). -/
def largestRequest (cs : List Container) (name : ResourceName) : Quantity :=
  (cs.map (fun c => quantityOf c.Resources.Requests name)).foldr max 0

/-- Largest limit for `name` of any single container of the list (zero for an
empty list). -/
def largestLimit (cs : List Container) (name : ResourceName) : Quantity :=
  (cs.map (fun c => quantityOf c.Resources.Limits name)).foldr max 0

/-- The pod overhead for `name`: zero when the pod has no overhead for it. -/
def overheadOf (pod : Pod) (name : ResourceName) : Quantity :=
  match pod.Spec.Overhead with
  | none => 0
  | some overhead => quantityOf overhead name

/-- No quantity of the list is negative. -/
def NonNegative (list : ResourceList) : Prop :=
  ∀ e ∈ list.entries, 0 ≤ e.2

instance (list : ResourceList) : Decidable (NonNegative list) := by
  unfold NonNegative; infer_instance

/-- Every request of every regular and init container is non-negative, as the
Kubernetes API server requires of a stored pod. -/
def NonNegativeRequests (pod : Pod) : Prop :=
  (∀ c ∈ pod.Spec.Containers, NonNegative c.Resources.Requests) ∧
  (∀ c ∈ pod.Spec.InitContainers, NonNegative c.Resources.Requests)

instance (pod : Pod) : Decidable (NonNegativeRequests pod) := by
  unfold NonNegativeRequests; infer_instance

/-- Every limit of every regular and init container is non-negative, as the
Kubernetes API server requires of a stored pod. -/
def NonNegativeLimits (pod : Pod) : Prop :=
  (∀ c ∈ pod.Spec.Containers, NonNegative c.Resources.Limits) ∧
  (∀ c ∈ pod.Spec.InitContainers, NonNegative c.Resources.Limits)

instance (pod : Pod) : Decidable (NonNegativeLimits pod) := by
  unfold NonNegativeLimits; infer_instance

/-- A resource list from literal entries; a later entry for a key replaces an
earlier one. -/
def resourceList (entries : List (ResourceName × Quantity)) : ResourceList :=
  entries.foldl (fun acc e => acc.insert e.1 e.2) ∅

/-- A container with the given requests and limits. -/
def containerOf (name : String) (requests limits : List (ResourceName × Quantity)) :
    Container :=
  { Name := name,
    Resources := { Limits := resourceList limits, Requests := resourceList requests } }

/-- The pod of the accounting example: cpu in millicores, memory in bytes.
Regular containers request {cpu 100m, memory 50Mi} and {cpu 200m, memory 0},
one init container requests {cpu 500m}, the overhead is {cpu 10m}. -/
def accountingPod : Pod :=
  { Name := "p",
    Spec :=
      { InitContainers := [containerOf "init" [("cpu", 500)] []],
        Containers :=
          [containerOf "a" [("cpu", 100), ("memory", 52428800)] [],
           containerOf "b" [("cpu", 200), ("memory", 0)] []],
        NodeName := "n1",
        Overhead := some (resourceList [("cpu", 10)]) },
    Status := { Phase := "Running" } }

/-- A pod whose only container has limits {cpu 0, memory 100}, with overhead
{cpu 10, memory 5, storage 7}. -/
def limitsPod : Pod :=
  { Name := "q",
    Spec :=
      { InitContainers := [],
        Containers := [containerOf "a" [] [("cpu", 0), ("memory", 100)]],
        NodeName := "n1",
        Overhead := some (resourceList [("cpu", 10), ("memory", 5), ("storage", 7)]) },
    Status := { Phase := "Running" } }

/-! ## Objects of a member cluster and the client that lists them -/

/-- The Go type `corev1.Node` (the fields read here); `Capacity` is
`Status.Capacity`. -/
structure Node where
  Name : String
  Capacity : ResourceList

/-- The Go type `metricsv1beta1.NodeMetrics` (the fields read here). -/
structure NodeMetrics where
  Name : String
  Usage : ResourceList

/-- The Go type `corev1.Namespace` (the fields read here). -/
structure Namespace where
  Name : String
  Labels : AList (fun _ : String => String)

/-- The Go type `labels.Selector`, by its string form. -/
abbrev Selector := String

/-- Remote calls, in the order they are issued; `cluster` is the cluster name the
caller passes along with the client. -/
inductive Call where
  | PivotGet (cluster : String)
  | ListNodeMetrics (cluster : String)
  | ListNodes (cluster : String)
  | ListNamespaces (cluster : String)
  | ListPods (cluster : String)
  deriving DecidableEq, Repr

/-- The client of one member cluster (`mgrclient.Client`), by the answers it
gives: the node-metrics listing of `Metrics()`, and the node, namespace and pod
listings of `Cache()`. -/
structure Client where
  NodeMetricses : Selector → Except String (List NodeMetrics)
  Nodes : Selector → Except String (List Node)
  Namespaces : Except String (List Namespace)
  Pods : Except String (List Pod)

/-- Conversions of quantities that live outside the sources:
`resource.Quantity.MilliValue` (with the conversion to `int`),
`resource.Quantity.String`, and `strproc.BinaryUnitConvert`, whose value is
given as `int(value)` truncates it, next to its error. -/
structure Units where
  MilliValue : Quantity → Int
  QuantityString : Quantity → String
  BinaryUnitConvert : String → String → Int × Option String

/-- The constant `strproc.Mi`. -/
def Mi : String := "Mi"

/-- The function `convertUnit`: the converted value; an error of the conversion
is logged only. -/
def convertUnit (u : Units) (data expectedUnit : String) : Int :=
  (u.BinaryUnitConvert data expectedUnit).1

/-! ## Cluster descriptors -/

/-- The Go type `clusterv1.ClusterState`, a string. -/
abbrev ClusterState := String

/-- Modelled from the spec: the lifecycle state names of `pkg/apis/cluster/v1`,
which is not among the sources; the spec names the states Processing, Normal,
Abnormal and InitFailed. -/
def ClusterProcessing : ClusterState := "Processing"

/-- Modelled from the spec: see `ClusterProcessing`. -/
def ClusterNormal : ClusterState := "Normal"

/-- Modelled from the spec: see `ClusterProcessing`. -/
def ClusterAbnormal : ClusterState := "Abnormal"

/-- Modelled from the spec: see `ClusterProcessing`. -/
def ClusterInitFailed : ClusterState := "InitFailed"

/-- A non-nil Go pointer `*ClusterState`: the address of the variable pointed to
and the value stored in it.  A nil pointer is `none`. -/
structure StatePtr where
  addr : Nat
  val : ClusterState
  deriving DecidableEq, Repr

/-- Go pointer comparison `p == q`: both nil, or both pointing to the same
variable. -/
def ptrEq (p q : Option StatePtr) : Bool :=
  match p, q with
  | none, none => true
  | some a, some b => a.addr == b.addr
  | _, _ => false

/-- The Go type `clusterv1.ClusterSpec` (the fields read here). -/
structure ClusterSpec where
  KubernetesAPIEndpoint : String
  IsMemberCluster : Bool
  IsWritable : Bool
  Description : String
  HarborAddr : String
  NetworkType : String
  IngressDomainSuffix : String

/-- The Go type `clusterv1.ClusterStatus` (the field read here). -/
structure ClusterStatus where
  State : Option StatePtr

/-- The Go type `clusterv1.Cluster`; nil `Labels` and `Annotations` maps are
`none`, and the creation time is a number. -/
structure Cluster where
  Name : String
  CreationTimestamp : Nat
  Labels : Option (AList (fun _ : String => String))
  Annotations : Option (AList (fun _ : String => String))
  Spec : ClusterSpec
  Status : ClusterStatus

/-- The zero value `clusterv1.Cluster{}`. -/
def Cluster.zero : Cluster :=
  { Name := "", CreationTimestamp := 0, Labels := none, Annotations := none,
    Spec :=
      { KubernetesAPIEndpoint := "", IsMemberCluster := false, IsWritable := false,
        Description := "", HarborAddr := "", NetworkType := "",
        IngressDomainSuffix := "" },
    Status := { State := none } }

/-- The state a descriptor carries, read through its pointer; `none` when the
state is unset. -/
def Cluster.state (c : Cluster) : Option ClusterState :=
  c.Status.State.map (fun p => p.val)

/-- The Go type `clusterv1.ClusterList`. -/
structure ClusterList where
  Items : List Cluster

/-! ## The synchronisation manager (`pkg/multicluster/sync.go`) -/

/-- Modelled from the spec: the key type `keys.ClusterWideKey` of
`pkg/utils/keys`, which is not among the sources; the spec describes it as an
identifier carrying just the cluster name. -/
structure ClusterWideKey where
  Name : String
  deriving DecidableEq, Repr

/-- The Go type `worker.QueueKey`, an empty interface: either a
`keys.ClusterWideKey` or a value of some other dynamic type. -/
inductive QueueKey where
  | clusterWide (key : ClusterWideKey)
  | other (payload : String)
  deriving DecidableEq, Repr

/-- The worker queue (`worker.Interface`), by the keys handed to
`AddRateLimited`, oldest first. -/
structure Worker where
  added : List QueueKey
  deriving DecidableEq, Repr

/-- The method `Worker.AddRateLimited`. -/
def Worker.AddRateLimited (w : Worker) (key : QueueKey) : Worker :=
  { added := w.added ++ [key] }

/-- Errors of a read of the mirrored cache: the not-found error that
`errors.IsNotFound` recognises, or any other error. -/
inductive CacheError where
  | notFound
  | other (msg : String)
  deriving DecidableEq, Repr

/-- The predicate `errors.IsNotFound`. -/
def IsNotFound (e : CacheError) : Bool :=
  match e with
  | CacheError.notFound => true
  | CacheError.other _ => false

/-- The mirrored cache of cluster descriptors (`cache.Cache`), by what a read of
a name finds. -/
structure Cache where
  objects : String → Except CacheError Cluster

/-- The method `cache.Get(ctx, key, out)`: the descriptor is written to `out` when
it is found; the cache reader returns its error before it writes, so `out` is
left as it was when the read fails. -/
def Cache.Get (c : Cache) (name : String) (out : Cluster) : Cluster × Option CacheError :=
  match c.objects name with
  | Except.ok obj => (obj, none)
  | Except.error e => (out, some e)

/-- The Go type `SyncMgr`; `keyFunc` is the package function
`ClusterWideKeyFunc`, which forwards to `keys.ClusterWideKeyFunc` outside the
sources. -/
structure SyncMgr where
  cache : Cache
  Worker : Worker
  isWithScout : Bool
  keyFunc : Cluster → Except String QueueKey

/-- The method `SyncMgr.OnClusterAdd`. -/
def SyncMgr.OnClusterAdd (m : SyncMgr) (obj : Cluster) : SyncMgr :=
  match m.keyFunc obj with
  | Except.error _ => m
  | Except.ok key => { m with Worker := m.Worker.AddRateLimited key }

/-- The method `SyncMgr.OnClusterDelete`. -/
def SyncMgr.OnClusterDelete (m : SyncMgr) (obj : Cluster) : SyncMgr :=
  m.OnClusterAdd obj

/-- Addresses held by the state pointer of a descriptor. -/
def Cluster.addrs (c : Cluster) : List Nat :=
  match c.Status.State with
  | none => []
  | some p => [p.addr]

/-- An address that none of the given live pointers holds: where Go places a
newly declared variable. -/
def freshAddr (live : List Nat) : Nat :=
  live.foldr max 0 + 1

/-- The method `SyncMgr.OnClusterUpdate`.  The short variable declaration
creates the two local variables `initFailedState` and `ProcessingState`; the
condition compares the state pointers of the two descriptors with the addresses
of these variables. -/
def SyncMgr.OnClusterUpdate (m : SyncMgr) (oldObj newObj : Cluster) : SyncMgr :=
  let oldCluster := oldObj
  let newCluster := newObj
  let base := freshAddr (oldCluster.addrs ++ newCluster.addrs)
  let initFailedState : StatePtr := { addr := base, val := ClusterInitFailed }
  let ProcessingState : StatePtr := { addr := base + 1, val := ClusterProcessing }
  if ptrEq oldCluster.Status.State (some initFailedState) &&
      ptrEq newCluster.Status.State (some ProcessingState) then
    match m.keyFunc newObj with
    | Except.error _ => m
    | Except.ok key => { m with Worker := m.Worker.AddRateLimited key }
  else m

/-- Operations of the cluster registry that `ReconcileCluster` calls
(`ManagerImpl.Del`, `AddInternalCluster`, `AddInternalClusterWithScout`,
`ManagerImpl.ScoutFor`), over a registry state `σ`: each returns the new state
and its error. -/
structure MultiClustersMgr (σ : Type) where
  Del : String → σ → σ × Option String
  AddInternalCluster : Cluster → σ → σ × Option String
  AddInternalClusterWithScout : Cluster → σ → σ × Option String
  ScoutFor : String → σ → σ × Option String

/-- Calls that `ReconcileCluster` issues, in order. -/
inductive SyncCall where
  | CacheGet (name : String)
  | Del (name : String)
  | AddInternalCluster (name : String)
  | AddInternalClusterWithScout (name : String)
  | ScoutFor (name : String)
  deriving DecidableEq, Repr

/-- What a run of `ReconcileCluster` leaves: the error it returns (`none` for
nil), the registry state, and the calls it issued. -/
structure Reconciled (σ : Type) where
  err : Option String
  registry : σ
  calls : List SyncCall

/-- The text of an error of the mirrored cache. -/
def CacheError.text (e : CacheError) : String :=
  match e with
  | CacheError.notFound => "not found"
  | CacheError.other msg => msg

/-- The method `SyncMgr.ReconcileCluster`, run on the registry state `s`. -/
def SyncMgr.ReconcileCluster {σ : Type} (mgr : MultiClustersMgr σ) (m : SyncMgr)
    (key : QueueKey) (s : σ) : Reconciled σ :=
  match key with
  | QueueKey.other _ =>
    { err := some "invalid key", registry := s, calls := [] }
  | QueueKey.clusterWide ckey =>
    let fetched := m.cache.Get ckey.Name Cluster.zero
    let cluster := fetched.1
    match fetched.2 with
    | some err =>
      -- delete internal cluster if cluster was deleted
      if IsNotFound err then
        let deleted := mgr.Del cluster.Name s
        { err := none, registry := deleted.1,
          calls := [SyncCall.CacheGet ckey.Name, SyncCall.Del cluster.Name] }
      else
        { err := some err.text, registry := s, calls := [SyncCall.CacheGet ckey.Name] }
    | none =>
      if m.isWithScout then
        let installed := mgr.AddInternalClusterWithScout cluster s
        match installed.2 with
        | some err =>
          { err := some err, registry := installed.1,
            calls := [SyncCall.CacheGet ckey.Name,
              SyncCall.AddInternalClusterWithScout cluster.Name] }
        | none =>
          -- start to scout for warden
          let scouted := mgr.ScoutFor cluster.Name installed.1
          match scouted.2 with
          | some err =>
            { err := some err, registry := scouted.1,
              calls := [SyncCall.CacheGet ckey.Name,
                SyncCall.AddInternalClusterWithScout cluster.Name,
                SyncCall.ScoutFor cluster.Name] }
          | none =>
            { err := none, registry := scouted.1,
              calls := [SyncCall.CacheGet ckey.Name,
                SyncCall.AddInternalClusterWithScout cluster.Name,
                SyncCall.ScoutFor cluster.Name] }
      else
        let installed := mgr.AddInternalCluster cluster s
        match installed.2 with
        | some err =>
          { err := some err, registry := installed.1,
            calls := [SyncCall.CacheGet ckey.Name,
              SyncCall.AddInternalCluster cluster.Name] }
        | none =>
          { err := none, registry := installed.1,
            calls := [SyncCall.CacheGet ckey.Name,
              SyncCall.AddInternalCluster cluster.Name] }

/-! ## The cluster registry -/

/-- Modelled from the spec: an entry of the cluster registry (the type
`InternalCluster` of `pkg/multicluster`, not among the sources): the cluster
name, the live client handle, the descriptor it was built from, and whether a
monitoring handle is attached. -/
structure InternalCluster where
  Name : String
  Client : Client
  RawCluster : Cluster
  Scout : Bool

/-- Modelled from the spec: the cluster registry (the manager of
`pkg/multicluster`, not among the sources), a mapping from cluster name to
entry with at most one entry per name. -/
abbrev Registry := AList (fun _ : String => InternalCluster)

/-- What the registry operations depend on outside the registry: whether a live
client can be built for a descriptor, and whether the health scout of a cluster
starts. -/
structure RegistryEnv where
  buildClient : Cluster → Except String Client
  startScout : String → Option String

/-- Modelled from the spec: the registry operations of `pkg/multicluster`, which
are not among the sources.  `Del` removes the entry if present; `Add` builds the
client and installs or replaces the entry, and installs nothing when the client
cannot be built; `AddWithMonitoring` does the same with a monitoring handle;
`ScoutFor` starts the per-cluster health scout, an external collaborator, and
leaves the entries alone. -/
def specManager (env : RegistryEnv) : MultiClustersMgr Registry :=
  { Del := fun name reg => (reg.erase name, none),
    AddInternalCluster := fun cluster reg =>
      match env.buildClient cluster with
      | Except.error e => (reg, some e)
      | Except.ok cli =>
        (reg.insert cluster.Name
          { Name := cluster.Name, Client := cli, RawCluster := cluster, Scout := false },
         none),
    AddInternalClusterWithScout := fun cluster reg =>
      match env.buildClient cluster with
      | Except.error e => (reg, some e)
      | Except.ok cli =>
        (reg.insert cluster.Name
          { Name := cluster.Name, Client := cli, RawCluster := cluster, Scout := true },
         none),
    ScoutFor := fun name reg => (reg, env.startScout name) }

/-! ## Fan-out aggregation (`pkg/apiserver/cubeapi/cluster/helper.go`) -/

/-- The Go type `clusterInfoOpts`. -/
structure clusterInfoOpts where
  statusFilter : String
  nodeLabelSelector : Selector
  pruneInfo : Bool

/-- The metadata section of a cluster info (the Go type `clusterMetaInfo`, by the
fields `makeMetadataInfo` sets). -/
structure clusterMetaInfo where
  ClusterName : String
  Status : String
  ClusterDescription : String
  CreateTime : Nat
  IsMemberCluster : Bool
  IsWritable : Bool
  HarborAddr : String
  KubeApiServer : String
  NetworkType : String
  IngressDomainSuffix : String
  Labels : Option (AList (fun _ : String => String))
  Annotations : Option (AList (fun _ : String => String))

/-- The zero value `clusterMetaInfo{}`. -/
def clusterMetaInfo.zero : clusterMetaInfo :=
  { ClusterName := "", Status := "", ClusterDescription := "", CreateTime := 0,
    IsMemberCluster := false, IsWritable := false, HarborAddr := "",
    KubeApiServer := "", NetworkType := "", IngressDomainSuffix := "",
    Labels := none, Annotations := none }

/-- The value a Go `int` (64 bits, two's complement) holds for the integer `x`:
`x` reduced into the range from `-2^63` to `2^63 - 1`. -/
def wrapInt (x : Int) : Int :=
  (x + 9223372036854775808) % 18446744073709551616 - 9223372036854775808

/-- Go addition of two `int` values, as in `a += b`: it wraps around. -/
def addInt (a b : Int) : Int :=
  wrapInt (a + b)

/-- The live-data section of a cluster info (the Go type `clusterLivedataInfo`, by
the fields `makeLivedataInfo` sets).  The fields are Go `int` counters: they
hold integers of the 64-bit range and are added with `addInt`. -/
structure clusterLivedataInfo where
  NodeCount : Int
  NamespaceCount : Int
  UsedCPU : Int
  TotalCPU : Int
  UsedMem : Int
  TotalMem : Int
  TotalStorage : Int
  UsedStorage : Int
  TotalStorageEphemeral : Int
  UsedStorageEphemeral : Int
  UsedCPURequest : Int
  UsedCPULimit : Int
  UsedMemRequest : Int
  UsedMemLimit : Int
  deriving DecidableEq, Repr

/-- The zero value `clusterLivedataInfo{}`. -/
def clusterLivedataInfo.zero : clusterLivedataInfo :=
  { NodeCount := 0, NamespaceCount := 0, UsedCPU := 0, TotalCPU := 0, UsedMem := 0,
    TotalMem := 0, TotalStorage := 0, UsedStorage := 0, TotalStorageEphemeral := 0,
    UsedStorageEphemeral := 0, UsedCPURequest := 0, UsedCPULimit := 0,
    UsedMemRequest := 0, UsedMemLimit := 0 }

/-- The Go type `clusterInfo`, which embeds the two sections. -/
structure clusterInfo where
  clusterMetaInfo : clusterMetaInfo
  clusterLivedataInfo : clusterLivedataInfo

/-- The resource names `corev1.ResourceCPU`, `ResourceMemory`, `ResourceStorage`
and `ResourceEphemeralStorage`. -/
def ResourceCPU : ResourceName := "cpu"

def ResourceMemory : ResourceName := "memory"

def ResourceStorage : ResourceName := "storage"

def ResourceEphemeralStorage : ResourceName := "ephemeral-storage"

/-- Modelled from the spec: the key of the default short-name annotation, the
constant `constants.CubeCnAnnotation` declared outside the sources; the string
stands for whatever key that constant holds. -/
def CubeCnAnnotation : String := "cn-name"

/-- What the aggregation reads outside its arguments: the descriptor that the
pivot client fetches for a name (`pivotCli.Direct().Get`), and the answer of the
registry lookup `multicluster.Interface().Get`, an entry or nil next to an error
or nil. -/
structure FleetEnv where
  pivotGet : String → Except String Cluster
  registryGet : String → Option InternalCluster × Option String

/-- The function `makeMetadataInfo`: the metadata of a cluster, its error, and
the call it issued. -/
def makeMetadataInfo (env : FleetEnv) (clusterName : String) (_opts : clusterInfoOpts) :
    (clusterMetaInfo × Option String) × List Call :=
  let info := clusterMetaInfo.zero
  match env.pivotGet clusterName with
  | Except.error err =>
    ((info, some ("get cluster " ++ clusterName ++ " failed: " ++ err)),
     [Call.PivotGet clusterName])
  | Except.ok cluster =>
    let state : StatePtr :=
      match cluster.Status.State with
      | none => { addr := 0, val := ClusterProcessing }
      | some p => p
    -- set up cluster meta info
    let annotations : AList (fun _ : String => String) :=
      match cluster.Annotations with
      | none => ∅
      | some a => a
    -- set cluster cn name same as en name by default
    let annotations :=
      match annotations.lookup CubeCnAnnotation with
      | none => annotations.insert CubeCnAnnotation cluster.Name
      | some _ => annotations
    (({ ClusterName := clusterName,
        Status := state.val,
        ClusterDescription := cluster.Spec.Description,
        CreateTime := cluster.CreationTimestamp,
        IsMemberCluster := cluster.Spec.IsMemberCluster,
        IsWritable := cluster.Spec.IsWritable,
        HarborAddr := cluster.Spec.HarborAddr,
        KubeApiServer := cluster.Spec.KubernetesAPIEndpoint,
        NetworkType := cluster.Spec.NetworkType,
        IngressDomainSuffix := cluster.Spec.IngressDomainSuffix,
        Labels := cluster.Labels,
        Annotations := some annotations }, none),
     [Call.PivotGet clusterName])

/-- Body of the loop of `makeLivedataInfo` over the node metrics. -/
def addNodeUsage (u : Units) (info : clusterLivedataInfo) (m : NodeMetrics) :
    clusterLivedataInfo :=
  { info with
    UsedCPU := addInt info.UsedCPU (u.MilliValue (quantityOf m.Usage ResourceCPU)),
    UsedMem := addInt info.UsedMem
      (convertUnit u (u.QuantityString (quantityOf m.Usage ResourceMemory)) Mi),
    UsedStorage := addInt info.UsedStorage
      (convertUnit u (u.QuantityString (quantityOf m.Usage ResourceStorage)) Mi),
    UsedStorageEphemeral := addInt info.UsedStorageEphemeral
      (convertUnit u (u.QuantityString (quantityOf m.Usage ResourceEphemeralStorage)) Mi) }

/-- Body of the loop of `makeLivedataInfo` over the nodes. -/
def addNodeCapacity (u : Units) (info : clusterLivedataInfo) (n : Node) :
    clusterLivedataInfo :=
  { info with
    TotalCPU := addInt info.TotalCPU (u.MilliValue (quantityOf n.Capacity ResourceCPU)),
    TotalMem := addInt info.TotalMem
      (convertUnit u (u.QuantityString (quantityOf n.Capacity ResourceMemory)) Mi),
    TotalStorage := addInt info.TotalStorage
      (convertUnit u (u.QuantityString (quantityOf n.Capacity ResourceStorage)) Mi),
    TotalStorageEphemeral := addInt info.TotalStorageEphemeral
      (convertUnit u (u.QuantityString (quantityOf n.Capacity ResourceEphemeralStorage)) Mi) }

/-- Body of the loop of `makeLivedataInfo` over the pods; `nodesName` is the set
of the names of the listed nodes. -/
def addPodUsage (u : Units) (nodesName : List String) (info : clusterLivedataInfo)
    (pod : Pod) : clusterLivedataInfo :=
  let statusPhase := pod.Status.Phase
  if pod.Spec.NodeName ∈ nodesName ∧ statusPhase ≠ PodSucceeded ∧ statusPhase ≠ PodFailed then
    let rl := podRequestsAndLimits pod
    let cpuReq := quantityOf rl.1 ResourceCPU
    let cpuLimit := quantityOf rl.2 ResourceCPU
    let memoryReq := quantityOf rl.1 ResourceMemory
    let memoryLimit := quantityOf rl.2 ResourceMemory
    { info with
      UsedCPURequest := addInt info.UsedCPURequest (u.MilliValue cpuReq),
      UsedCPULimit := addInt info.UsedCPULimit (u.MilliValue cpuLimit),
      UsedMemRequest := addInt info.UsedMemRequest
        (convertUnit u (u.QuantityString memoryReq) Mi),
      UsedMemLimit := addInt info.UsedMemLimit
        (convertUnit u (u.QuantityString memoryLimit) Mi) }
  else info

/-- The function `makeLivedataInfo`: the live data of a cluster (as far as it was
filled in when an error is returned), its error, and the calls issued. -/
def makeLivedataInfo (cli : Client) (cluster : String) (opts : clusterInfoOpts) (u : Units) :
    (clusterLivedataInfo × Option String) × List Call :=
  let info := clusterLivedataInfo.zero
  -- populate nodes used resources info by metrics api
  let info :=
    match cli.NodeMetricses opts.nodeLabelSelector with
    | Except.error _ => info
    | Except.ok nodesMc => nodesMc.foldl (addNodeUsage u) info
  -- populate node resources info
  match cli.Nodes opts.nodeLabelSelector with
  | Except.error err =>
    ((info, some ("get cluster " ++ cluster ++ " nodes failed: " ++ err)),
     [Call.ListNodeMetrics cluster, Call.ListNodes cluster])
  | Except.ok nodes =>
    let info := { info with NodeCount := (nodes.length : Int) }
    let info := nodes.foldl (addNodeCapacity u) info
    match cli.Namespaces with
    | Except.error err =>
      ((info, some ("get cluster " ++ cluster ++ " namespace failed: " ++ err)),
       [Call.ListNodeMetrics cluster, Call.ListNodes cluster, Call.ListNamespaces cluster])
    | Except.ok ns =>
      let info := { info with NamespaceCount := (ns.length : Int) }
      match cli.Pods with
      | Except.error err =>
        ((info, some err),
         [Call.ListNodeMetrics cluster, Call.ListNodes cluster,
          Call.ListNamespaces cluster, Call.ListPods cluster])
      | Except.ok podList =>
        let nodesName := nodes.map (fun n => n.Name)
        let info := podList.foldl (addPodUsage u nodesName) info
        ((info, none),
         [Call.ListNodeMetrics cluster, Call.ListNodes cluster,
          Call.ListNamespaces cluster, Call.ListPods cluster])

/-- One pass of the body of the loop of `makeClusterInfos`, for `item`, from the
infos collected so far: the infos after the pass, or the error with which a
failed live-data collection makes the function return, and the calls issued in
the pass.  A `continue` ends the pass with the infos it has. -/
def makeClusterInfosBody (env : FleetEnv) (u : Units) (opts : clusterInfoOpts)
    (item : Cluster) (infos : List clusterInfo) :
    Except String (List clusterInfo) × List Call :=
  let clusterName := item.Name
  -- populate metadata of cluster
  let fetched := makeMetadataInfo env clusterName opts
  match fetched.1.2 with
  | some _ => (Except.ok infos, fetched.2)
  | none =>
    let metadataInfo := fetched.1.1
    let info : clusterInfo :=
      { clusterMetaInfo := metadataInfo, clusterLivedataInfo := clusterLivedataInfo.zero }
    -- set cluster status and do not populate livedata if abnormal
    let got := env.registryGet clusterName
    let internalCluster := got.1
    let metadataInfo :=
      if internalCluster.isSome && got.2.isSome then
        { metadataInfo with Status := ClusterAbnormal }
      else metadataInfo
    match internalCluster, decide (metadataInfo.Status = ClusterAbnormal) with
    | some ic, false =>
      -- populate livedata of cluster
      if opts.pruneInfo then
        -- filter by query status param
        if opts.statusFilter.length = 0 then (Except.ok (infos ++ [info]), fetched.2)
        else if info.clusterMetaInfo.Status = opts.statusFilter then
          (Except.ok (infos ++ [info]), fetched.2)
        else (Except.ok infos, fetched.2)
      else
        let live := makeLivedataInfo ic.Client clusterName opts u
        match live.1.2 with
        | some err => (Except.error err, fetched.2 ++ live.2)
        | none =>
          let info := { info with clusterLivedataInfo := live.1.1 }
          -- filter by query status param
          if opts.statusFilter.length = 0 then
            (Except.ok (infos ++ [info]), fetched.2 ++ live.2)
          else if info.clusterMetaInfo.Status = opts.statusFilter then
            (Except.ok (infos ++ [info]), fetched.2 ++ live.2)
          else (Except.ok infos, fetched.2 ++ live.2)
    | _, _ =>
      let skipped : clusterInfo :=
        { clusterMetaInfo := metadataInfo, clusterLivedataInfo := clusterLivedataInfo.zero }
      if opts.statusFilter.length = 0 then (Except.ok (infos ++ [skipped]), fetched.2)
      else if metadataInfo.Status = opts.statusFilter then
        (Except.ok (infos ++ [skipped]), fetched.2)
      else (Except.ok infos, fetched.2)

/-- The loop of `makeClusterInfos` over `clusters.Items`, from the infos
collected and the calls issued so far.  A failed live-data collection returns
the error and no list. -/
def makeClusterInfosLoop (env : FleetEnv) (u : Units) (opts : clusterInfoOpts) :
    List Cluster → List clusterInfo → List Call →
      Except String (List clusterInfo) × List Call
  | [], infos, calls => (Except.ok infos, calls)
  | item :: rest, infos, calls =>
    match makeClusterInfosBody env u opts item infos with
    | (Except.error err, issued) => (Except.error err, calls ++ issued)
    | (Except.ok infos, issued) =>
      makeClusterInfosLoop env u opts rest infos (calls ++ issued)

/-- The function `makeClusterInfos`: the infos or the error, and the calls
issued. -/
def makeClusterInfos (env : FleetEnv) (u : Units) (clusters : ClusterList)
    (opts : clusterInfoOpts) : Except String (List clusterInfo) × List Call :=
  makeClusterInfosLoop env u opts clusters.Items [] []

/-! ### Vocabulary of the statements about `makeClusterInfos` -/

/-- The metadata fetch for the cluster succeeds. -/
def metadataFound (env : FleetEnv) (name : String) : Bool :=
  match env.pivotGet name with
  | Except.ok _ => true
  | Except.error _ => false

/-- The cluster is present in the registry: the lookup returns an entry. -/
def inRegistry (env : FleetEnv) (name : String) : Bool :=
  (env.registryGet name).1.isSome

/-- The status reported for a cluster: the state of its descriptor, Processing
when unset, and Abnormal when the registry returns its entry next to an
error. -/
def reportedStatus (env : FleetEnv) (name : String) : String :=
  match env.pivotGet name with
  | Except.error _ => ""
  | Except.ok cluster =>
    if inRegistry env name && (env.registryGet name).2.isSome then ClusterAbnormal
    else cluster.state.getD ClusterProcessing

/-- The status passes the status filter: the filter is empty or equal to it. -/
def passesFilter (opts : clusterInfoOpts) (status : String) : Bool :=
  decide (opts.statusFilter.length = 0) || decide (status = opts.statusFilter)

/-- The clusters that belong in the result: metadata fetched and status passing
the filter. -/
def included (env : FleetEnv) (opts : clusterInfoOpts) (item : Cluster) : Bool :=
  metadataFound env item.Name && passesFilter opts (reportedStatus env item.Name)

/-- The clusters for which live data is collected: metadata fetched, present in
the registry, status not Abnormal, prune flag not set. -/
def collectsLiveData (env : FleetEnv) (opts : clusterInfoOpts) (name : String) : Bool :=
  metadataFound env name && inRegistry env name &&
    !decide (reportedStatus env name = ClusterAbnormal) && !opts.pruneInfo

/-- The node, namespace and pod listings of the client all succeed. -/
def listingsSucceed (cli : Client) (opts : clusterInfoOpts) : Bool :=
  (match cli.Nodes opts.nodeLabelSelector with
    | Except.ok _ => true
    | Except.error _ => false) &&
  (match cli.Namespaces with
    | Except.ok _ => true
    | Except.error _ => false) &&
  (match cli.Pods with
    | Except.ok _ => true
    | Except.error _ => false)

/-- The listings succeed on the client the registry holds for the cluster, if
it holds one. -/
def listingsSucceedFor (env : FleetEnv) (opts : clusterInfoOpts) (name : String) : Bool :=
  match (env.registryGet name).1 with
  | some ic => listingsSucceed ic.Client opts
  | none => true

/-- No live-data listing fails: the listings succeed on every cluster of the list
for which live data is collected. -/
def NoListingFails (env : FleetEnv) (opts : clusterInfoOpts) (items : List Cluster) : Prop :=
  ∀ item ∈ items, collectsLiveData env opts item.Name = true →
    listingsSucceedFor env opts item.Name = true

instance (env : FleetEnv) (opts : clusterInfoOpts) (items : List Cluster) :
    Decidable (NoListingFails env opts items) := by
  unfold NoListingFails; infer_instance

/-- The call is one of the live-data queries on the cluster `name`. -/
def isLiveDataCall (name : String) (c : Call) : Bool :=
  decide (c = Call.ListNodeMetrics name) || decide (c = Call.ListNodes name) ||
    decide (c = Call.ListNamespaces name) || decide (c = Call.ListPods name)

/-! ## Concrete inputs of the examples -/

/-- A descriptor named `name` whose state pointer is `state`. -/
def clusterNamed (name : String) (state : Option StatePtr) : Cluster :=
  { Cluster.zero with Name := name, Status := { State := state } }

/-- A key function that derives the key from the name of the descriptor. -/
def nameKeyFunc (c : Cluster) : Except String QueueKey :=
  Except.ok (QueueKey.clusterWide { Name := c.Name })

/-- A mirrored cache holding the given descriptors, found by name. -/
def cacheOf (objects : List Cluster) : Cache :=
  { objects := fun name =>
      match objects.find? (fun c => c.Name == name) with
      | some c => Except.ok c
      | none => Except.error CacheError.notFound }

/-- A synchronisation manager over the given cache with an empty queue. -/
def syncMgrOf (objects : List Cluster) (isWithScout : Bool) : SyncMgr :=
  { cache := cacheOf objects, Worker := { added := [] }, isWithScout := isWithScout,
    keyFunc := nameKeyFunc }

/-- A client of a cluster without nodes, namespaces and pods. -/
def emptyClient : Client :=
  { NodeMetricses := fun _ => Except.ok [],
    Nodes := fun _ => Except.ok [],
    Namespaces := Except.ok [],
    Pods := Except.ok [] }

/-- A registry environment in which every client can be built and the health
scout of the clusters named in `failing` does not start. -/
def registryEnvOf (failing : List String) : RegistryEnv :=
  { buildClient := fun _ => Except.ok emptyClient,
    startScout := fun name => if name ∈ failing then some "scout failed" else none }

/-- A registry environment in which no client can be built. -/
def brokenRegistryEnv : RegistryEnv :=
  { buildClient := fun _ => Except.error "no client",
    startScout := fun _ => none }

/-- A registry holding one entry, for the cluster `name`. -/
def registryWith (name : String) : Registry :=
  (∅ : Registry).insert name
    { Name := name, Client := emptyClient, RawCluster := clusterNamed name none,
      Scout := false }

/-- A manager like `specManager`, except that `Del` reports an error for an
entry that is absent. -/
def strictDelManager (env : RegistryEnv) : MultiClustersMgr Registry :=
  { specManager env with
    Del := fun name reg =>
      match reg.lookup name with
      | none => (reg, some "not found")
      | some _ => (reg.erase name, none) }

/-- Conversions that read the count of units as it is and convert nothing. -/
def plainUnits : Units :=
  { MilliValue := fun q => q,
    QuantityString := fun _ => "",
    BinaryUnitConvert := fun _ _ => (0, none) }

/-- A registry entry for the cluster `name` with a client without objects. -/
def entryOf (name : String) : InternalCluster :=
  { Name := name, Client := emptyClient, RawCluster := clusterNamed name none,
    Scout := false }

/-- The fleet of the filtered-aggregation example: "x" and "z" are Normal and in
the registry, "y" is Abnormal and not in the registry. -/
def fleetEnv : FleetEnv :=
  { pivotGet := fun name =>
      if name = "x" ∨ name = "z" then
        Except.ok (clusterNamed name (some { addr := 1, val := ClusterNormal }))
      else if name = "y" then
        Except.ok (clusterNamed name (some { addr := 2, val := ClusterAbnormal }))
      else Except.error "not found",
    registryGet := fun name =>
      if name = "x" ∨ name = "z" then (some (entryOf name), none)
      else (none, some "not found") }

/-- The cluster list of the filtered-aggregation example. -/
def fleet : ClusterList :=
  { Items := [clusterNamed "x" none, clusterNamed "y" none, clusterNamed "z" none] }

/-- The options of the filtered-aggregation example: status filter "Normal". -/
def normalOnly : clusterInfoOpts :=
  { statusFilter := "Normal", nodeLabelSelector := "", pruneInfo := false }

/-! ## Relationship resolution (`pkg/apiserver/cubeapi/cluster/helper.go`) -/

/-- The constants of `pkg/utils/constants` that the relationship resolution
reads (`TenantLabel`, `ProjectLabel`, `HncSuffix`, `HncCurrentDepth`,
`HncTenantDepth`, `HncProjectDepth`); the package is not among the sources, so
their values are left open. -/
structure HncConstants where
  TenantLabel : String
  ProjectLabel : String
  HncSuffix : String
  HncCurrentDepth : String
  HncTenantDepth : String
  HncProjectDepth : String

/-- The namespace view of the mirrored cache of one member cluster
(`cache.Cache`), by the answers it gives: the read of a namespace by name and
the listing of all namespaces. -/
structure NamespaceCache where
  Get : String → Except CacheError Namespace
  List : Except String (List Namespace)

/-- Calls on the cache of a member cluster, in the order they are issued. -/
inductive CacheCall where
  | GetNamespace (name : String)
  | ListNamespaces
  deriving DecidableEq, Repr

/-- The loop of `isRelateWith` over the listed namespaces: true at the first
namespace that carries the label `hncLabel` with the value `depth`. -/
def isRelateWithLoop (hncLabel depth : String) : List Namespace → Bool
  | [] => false
  | ns :: rest =>
    match ns.Labels.lookup hncLabel with
    | some d => if d = depth then true else isRelateWithLoop hncLabel depth rest
    | none => isRelateWithLoop hncLabel depth rest

/-- The function `isRelateWith`: its boolean, its error, and the calls issued on
the cache; `nsName` is the parameter `namespace`. -/
def isRelateWith (k : HncConstants) (nsName : String) (cli : NamespaceCache)
    (depth : String) : (Bool × Option String) × List CacheCall :=
  if depth = k.HncCurrentDepth then ((true, none), [])
  else
    let hncLabel := nsName ++ k.HncSuffix
    match cli.List with
    | Except.error err => ((false, some err), [CacheCall.ListNamespaces])
    | Except.ok nsList =>
      ((isRelateWithLoop hncLabel depth nsList, none), [CacheCall.ListNamespaces])

/-- A cluster of the snapshot `multicluster.Interface().FuzzyCopy()`, by the
fields read here: its name and the cache of its client. -/
structure FuzzyCluster where
  Name : String
  Cache : NamespaceCache

/-- One pass of the body of the loop of `getClustersByNamespace`, for `cluster`,
from the names collected so far: the names after the pass, or the error with
which the function returns, and the calls issued on the cache of the cluster. -/
def getClustersByNamespaceBody (k : HncConstants) (nsName : String)
    (cluster : FuzzyCluster) (clusterNames : List String) :
    Except String (List String) × List CacheCall :=
  let cli := cluster.Cache
  let isRelated := true
  match cli.Get nsName with
  | Except.error err =>
    if IsNotFound err then (Except.ok clusterNames, [CacheCall.GetNamespace nsName])
    else (Except.error err.text, [CacheCall.GetNamespace nsName])
  | Except.ok ns =>
    -- if namespace is tenant hnc
    let afterTenant : (Bool × Option String) × List CacheCall :=
      match ns.Labels.lookup k.TenantLabel with
      | some t => isRelateWith k t cli k.HncTenantDepth
      | none => ((isRelated, none), [])
    match afterTenant.1.2 with
    | some err => (Except.error err, CacheCall.GetNamespace nsName :: afterTenant.2)
    | none =>
      let isRelated := afterTenant.1.1
      -- if namespace is project hnc
      let afterProject : (Bool × Option String) × List CacheCall :=
        match ns.Labels.lookup k.ProjectLabel with
        | some p => isRelateWith k p cli k.HncProjectDepth
        | none => ((isRelated, none), [])
      match afterProject.1.2 with
      | some err =>
        (Except.error err,
         CacheCall.GetNamespace nsName :: (afterTenant.2 ++ afterProject.2))
      | none =>
        let isRelated := afterProject.1.1
        -- add related cluster to result
        if isRelated then
          (Except.ok (clusterNames ++ [cluster.Name]),
           CacheCall.GetNamespace nsName :: (afterTenant.2 ++ afterProject.2))
        else
          (Except.ok clusterNames,
           CacheCall.GetNamespace nsName :: (afterTenant.2 ++ afterProject.2))

/-- The loop of `getClustersByNamespace` over the clusters of the snapshot, from
the names collected and the calls issued so far; a call is recorded with the
name of the cluster it went to. -/
def getClustersByNamespaceLoop (k : HncConstants) (nsName : String) :
    List FuzzyCluster → List String → List (String × CacheCall) →
      Except String (List String) × List (String × CacheCall)
  | [], clusterNames, calls => (Except.ok clusterNames, calls)
  | cluster :: rest, clusterNames, calls =>
    match getClustersByNamespaceBody k nsName cluster clusterNames with
    | (Except.error err, issued) =>
      (Except.error err, calls ++ issued.map (fun c => (cluster.Name, c)))
    | (Except.ok clusterNames, issued) =>
      getClustersByNamespaceLoop k nsName rest clusterNames
        (calls ++ issued.map (fun c => (cluster.Name, c)))

/-- The function `getClustersByNamespace`, on the snapshot `clusters` of the
registry in the order the loop visits it: the names or the error, and the calls
issued. -/
def getClustersByNamespace (k : HncConstants) (clusters : List FuzzyCluster)
    (nsName : String) : Except String (List String) × List (String × CacheCall) :=
  getClustersByNamespaceLoop k nsName clusters [] []

/-! ### Vocabulary of the statements about the relationship resolution -/

/-- Some namespace of the list carries the label `hncLabel` with the value
`depth`. -/
def carriesDepth (hncLabel depth : String) (nss : List Namespace) : Prop :=
  ∃ ns ∈ nss, ns.Labels.lookup hncLabel = some depth

/-- The relationship check of a label value succeeds: `isRelateWith` returns true
and no error. -/
def checkSucceeds (k : HncConstants) (cli : NamespaceCache) (name depth : String) : Bool :=
  (isRelateWith k name cli depth).1.1 && (isRelateWith k name cli depth).1.2.isNone

/-- The relationship check succeeds for every tenant and project label present
on the namespace. -/
def relatedByEveryLabel (k : HncConstants) (cli : NamespaceCache) (ns : Namespace) : Bool :=
  (match ns.Labels.lookup k.TenantLabel with
    | some t => checkSucceeds k cli t k.HncTenantDepth
    | none => true) &&
  (match ns.Labels.lookup k.ProjectLabel with
    | some p => checkSucceeds k cli p k.HncProjectDepth
    | none => true)

/-- The relationship check succeeds for the label examined last: the project
label when the namespace carries it, otherwise the tenant label when the
namespace carries it; a namespace with neither label is related. -/
def relatedByLastLabel (k : HncConstants) (cli : NamespaceCache) (ns : Namespace) : Bool :=
  match ns.Labels.lookup k.ProjectLabel with
  | some p => checkSucceeds k cli p k.HncProjectDepth
  | none =>
    match ns.Labels.lookup k.TenantLabel with
    | some t => checkSucceeds k cli t k.HncTenantDepth
    | none => true

/-- The cluster holds the namespace and is related to it by the label examined
last. -/
def reportedRelated (k : HncConstants) (nsName : String) (cluster : FuzzyCluster) : Bool :=
  match cluster.Cache.Get nsName with
  | Except.ok ns => relatedByLastLabel k cluster.Cache ns
  | Except.error _ => false

/-- No read on the cluster fails: the namespace is found or reported not found,
and the namespaces can be listed. -/
def lookupsSucceed (nsName : String) (cluster : FuzzyCluster) : Bool :=
  (match cluster.Cache.Get nsName with
    | Except.ok _ => true
    | Except.error e => IsNotFound e) &&
  (match cluster.Cache.List with
    | Except.ok _ => true
    | Except.error _ => false)

/-- The usage fields of the live data, which the node metrics fill in. -/
def metricsUsage (info : clusterLivedataInfo) : Int × Int × Int × Int :=
  (info.UsedCPU, info.UsedMem, info.UsedStorage, info.UsedStorageEphemeral)

/-- The pod counts towards the used requests and limits: it is bound to a listed
node and its phase is neither Succeeded nor Failed. -/
def countsTowardsUsage (nodes : List Node) (pod : Pod) : Bool :=
  decide (pod.Spec.NodeName ∈ nodes.map (fun n => n.Name)) &&
    decide (pod.Status.Phase ≠ PodSucceeded) && decide (pod.Status.Phase ≠ PodFailed)

/-- The request and limit fields of the live data, which the pods fill in. -/
def workloadUsage (info : clusterLivedataInfo) : Int × Int × Int × Int :=
  (info.UsedCPURequest, info.UsedCPULimit, info.UsedMemRequest, info.UsedMemLimit)

/-- The effective cpu request of a pod, in the unit of the live data. -/
def podCPURequest (u : Units) (pod : Pod) : Int :=
  u.MilliValue (quantityOf (podRequestsAndLimits pod).1 ResourceCPU)

/-- The effective cpu limit of a pod, in the unit of the live data. -/
def podCPULimit (u : Units) (pod : Pod) : Int :=
  u.MilliValue (quantityOf (podRequestsAndLimits pod).2 ResourceCPU)

/-- The effective memory request of a pod, in the unit of the live data. -/
def podMemRequest (u : Units) (pod : Pod) : Int :=
  convertUnit u (u.QuantityString (quantityOf (podRequestsAndLimits pod).1 ResourceMemory)) Mi

/-- The effective memory limit of a pod, in the unit of the live data. -/
def podMemLimit (u : Units) (pod : Pod) : Int :=
  convertUnit u (u.QuantityString (quantityOf (podRequestsAndLimits pod).2 ResourceMemory)) Mi

/-- The sum of a list of `int` values as the Go loop `total += x` computes it,
from zero and with wrapping additions. -/
def sumInt (xs : List Int) : Int :=
  xs.foldl addInt 0

/-- The integer is in the range of a Go `int`. -/
def InIntRange (x : Int) : Prop :=
  -9223372036854775808 ≤ x ∧ x < 9223372036854775808

instance (x : Int) : Decidable (InIntRange x) := by
  unfold InIntRange; infer_instance

/-- The listed pods that count towards the used requests and limits. -/
def countedPods (nodes : List Node) (pods : List Pod) : List Pod :=
  pods.filter (countsTowardsUsage nodes)

/-! ### Concrete inputs of the examples, continued -/

/-- Sample values of the constants, following the convention of hierarchical
namespaces that a namespace is at depth 0 of itself; the theorems hold for
every choice of values. -/
def sampleConstants : HncConstants :=
  { TenantLabel := "kubecube.io/tenant",
    ProjectLabel := "kubecube.io/project",
    HncSuffix := ".tree.hnc.x-k8s.io/depth",
    HncCurrentDepth := "0",
    HncTenantDepth := "2",
    HncProjectDepth := "1" }

/-- A namespace with the given labels. -/
def namespaceOf (name : String) (labels : List (String × String)) : Namespace :=
  { Name := name,
    Labels := labels.foldl (fun acc e => acc.insert e.1 e.2) ∅ }

/-- A cache holding the given namespaces, found by name. -/
def namespaceCacheOf (nss : List Namespace) : NamespaceCache :=
  { Get := fun name =>
      match nss.find? (fun ns => ns.Name == name) with
      | some ns => Except.ok ns
      | none => Except.error CacheError.notFound,
    List := Except.ok nss }

/-- A cluster "c1" with a namespace "team" that carries the tenant label "t1"
and the project label "p1", and a namespace "work" one level below the project
"p1"; no namespace is two levels below the tenant "t1". -/
def projectOnlyCluster : FuzzyCluster :=
  { Name := "c1",
    Cache := namespaceCacheOf
      [namespaceOf "team" [("kubecube.io/tenant", "t1"), ("kubecube.io/project", "p1")],
       namespaceOf "work" [("p1.tree.hnc.x-k8s.io/depth", "1")]] }

/-- A cache like `c`, except that the listing of namespaces fails. -/
def withFailingList (c : NamespaceCache) : NamespaceCache :=
  { c with List := Except.error "list failed" }

/-- A client whose node and namespace listings succeed and whose pod listing
fails. -/
def failingPodsClient : Client :=
  { emptyClient with Pods := Except.error "pods unavailable" }

/-- The fleet of the example with the client of "z" replaced by one whose pod
listing fails. -/
def brokenFleetEnv : FleetEnv :=
  { fleetEnv with
    registryGet := fun name =>
      if name = "z" then
        (some { entryOf name with Client := failingPodsClient }, none)
      else fleetEnv.registryGet name }

/-- A pod named `name` on the node `node` in the phase `phase`, whose only
container requests and limits the given cpu and memory. -/
def podOn (name node : String) (phase : PodPhase) (cpuReq cpuLimit memReq memLimit : Quantity) :
    Pod :=
  { Name := name,
    Spec :=
      { InitContainers := [],
        Containers :=
          [containerOf "main" [("cpu", cpuReq), ("memory", memReq)]
            [("cpu", cpuLimit), ("memory", memLimit)]],
        NodeName := node,
        Overhead := none },
    Status := { Phase := phase } }

/-- A client of a cluster with the node "n1" and four pods: one running on
"n1", one succeeded on "n1", one running on the unlisted node "n2", and one
pending without a node; the node-metrics query fails. -/
def usageClient : Client :=
  { NodeMetricses := fun _ => Except.error "metrics unavailable",
    Nodes := fun _ => Except.ok [{ Name := "n1", Capacity := resourceList [("cpu", 4000)] }],
    Namespaces := Except.ok [],
    Pods := Except.ok
      [podOn "a" "n1" "Running" 100 200 30 40,
       podOn "b" "n1" "Succeeded" 1 1 1 1,
       podOn "c" "n2" "Running" 1 1 1 1,
       podOn "d" "" "Pending" 1 1 1 1] }

/-- Conversions that read the count of units as it is: the string form of a
quantity is a tally of that many strokes, and the conversion counts the
strokes. -/
def tallyUnits : Units :=
  { MilliValue := fun q => q,
    QuantityString := fun q => String.mk (List.replicate q.toNat (Char.ofNat 105)),
    BinaryUnitConvert := fun data _ => ((data.length : Int), none) }

/-- A client of a cluster with the node "n1" and two pending pods on it that
request 5000000000000000000 millicores each. -/
def overflowClient : Client :=
  { NodeMetricses := fun _ => Except.ok [],
    Nodes := fun _ => Except.ok [{ Name := "n1", Capacity := resourceList [("cpu", 4000)] }],
    Namespaces := Except.ok [],
    Pods := Except.ok
      [podOn "a" "n1" "Pending" 5000000000000000000 0 0 0,
       podOn "b" "n1" "Pending" 5000000000000000000 0 0 0] }

/-! # Theorems -/

/-! ## Lookups after the per-entry loops -/

/-- A loop over the entries of a map whose body rewrites, from the entry it
visits, the entry of the same key only, acts on every key separately. -/
theorem lookup_foldl_entries
    (step : ResourceList → ResourceName → Quantity → ResourceList)
    (g : Option Quantity → Quantity → Option Quantity)
    (hsame : ∀ list a b, (step list a b).lookup a = g (list.lookup a) b)
    (hother : ∀ list a b n, n ≠ a → (step list a b).lookup n = list.lookup n)
    (new list : ResourceList) (n : ResourceName) :
    (new.foldl step list).lookup n =
      match new.lookup n with
      | none => list.lookup n
      | some q => g (list.lookup n) q := by
  obtain ⟨l, hl⟩ := new
  simp only [AList.foldl, AList.lookup]
  induction l generalizing list with
  | nil => simp
  | cons e l ih =>
    obtain ⟨a, b⟩ := e
    have hnd := List.nodupKeys_cons.1 hl
    rw [List.foldl_cons, ih _ hnd.2]
    by_cases h : n = a
    · subst h
      have hnone : List.dlookup n l = none := List.dlookup_eq_none.2 hnd.1
      simp only [hnone, List.dlookup_cons_eq]
      exact hsame list n b
    · have e := hother list a b n h
      simp only [AList.lookup] at e
      rw [List.dlookup_cons_ne l _ h, e]

theorem lookup_addResourceList (list new : ResourceList) (n : ResourceName) :
    (addResourceList list new).lookup n =
      match new.lookup n with
      | none => list.lookup n
      | some q => some ((list.lookup n).getD 0 + q) := by
  refine lookup_foldl_entries addResourceEntry (fun o q => some (o.getD 0 + q)) ?_ ?_ new list n
  · intro list a b
    unfold addResourceEntry
    cases h : list.lookup a <;> simp [AList.lookup_insert]
  · intro list a b n hne
    unfold addResourceEntry
    cases h : list.lookup a <;> simp [AList.lookup_insert_ne hne]

theorem lookup_maxResourceList (list new : ResourceList) (n : ResourceName) :
    (maxResourceList list new).lookup n =
      match new.lookup n with
      | none => list.lookup n
      | some q =>
        match list.lookup n with
        | none => some q
        | some v => some (if q > v then q else v) := by
  refine lookup_foldl_entries maxResourceEntry
    (fun o q => match o with
      | none => some q
      | some v => some (if q > v then q else v)) ?_ ?_ new list n
  · intro list a b
    unfold maxResourceEntry
    cases h : list.lookup a with
    | none => simp [AList.lookup_insert]
    | some v =>
      by_cases hc : b > v
      · simp [hc, AList.lookup_insert]
      · simp [hc, h]
  · intro list a b n hne
    unfold maxResourceEntry
    cases h : list.lookup a with
    | none => simp [AList.lookup_insert_ne hne]
    | some v =>
      by_cases hc : b > v
      · simp [hc, AList.lookup_insert_ne hne]
      · simp [hc]

theorem lookup_addOverheadToLimit (limits overhead : ResourceList) (n : ResourceName) :
    (overhead.foldl addOverheadToLimit limits).lookup n =
      match overhead.lookup n with
      | none => limits.lookup n
      | some q =>
        match limits.lookup n with
        | none => none
        | some v => some (if v ≠ 0 then v + q else v) := by
  refine lookup_foldl_entries addOverheadToLimit
    (fun o q => match o with
      | none => none
      | some v => some (if v ≠ 0 then v + q else v)) ?_ ?_ overhead limits n
  · intro list a b
    unfold addOverheadToLimit
    cases h : list.lookup a with
    | none => simp [h]
    | some v =>
      by_cases hc : v = 0
      · simp [hc, h]
      · simp [hc, AList.lookup_insert]
  · intro list a b n hne
    unfold addOverheadToLimit
    cases h : list.lookup a with
    | none => simp
    | some v =>
      by_cases hc : v = 0
      · simp [hc]
      · simp [hc, AList.lookup_insert_ne hne]

theorem quantityOf_addResourceList (list new : ResourceList) (n : ResourceName) :
    quantityOf (addResourceList list new) n = quantityOf list n + quantityOf new n := by
  unfold quantityOf
  rw [lookup_addResourceList]
  cases h : new.lookup n <;> simp

theorem quantityOf_nonneg {list : ResourceList} (h : NonNegative list) (n : ResourceName) :
    0 ≤ quantityOf list n := by
  unfold quantityOf
  cases hl : list.lookup n with
  | none => simp
  | some q =>
    have hm : (⟨n, q⟩ : Sigma fun _ : ResourceName => Quantity) ∈ list.entries :=
      AList.mem_lookup_iff.1 hl
    simpa using h _ hm

theorem quantityOf_maxResourceList (list new : ResourceList) (n : ResourceName)
    (h1 : 0 ≤ quantityOf list n) (h2 : 0 ≤ quantityOf new n) :
    quantityOf (maxResourceList list new) n = max (quantityOf list n) (quantityOf new n) := by
  unfold quantityOf at *
  rw [lookup_maxResourceList]
  cases hn : new.lookup n with
  | none =>
    rw [hn] at h2
    simpa using h1
  | some q =>
    rw [hn] at h2
    cases hl : list.lookup n with
    | none => simpa using h2
    | some v =>
      simp only [Option.getD_some]
      by_cases hc : q > v
      · simp [hc, max_eq_right (le_of_lt hc)]
      · simp [hc, max_eq_left (not_lt.1 hc)]

theorem lookup_addResourceList_eq_none (list new : ResourceList) (n : ResourceName) :
    (addResourceList list new).lookup n = none ↔
      list.lookup n = none ∧ new.lookup n = none := by
  rw [lookup_addResourceList]
  cases h : new.lookup n <;> simp

theorem lookup_maxResourceList_eq_none (list new : ResourceList) (n : ResourceName) :
    (maxResourceList list new).lookup n = none ↔
      list.lookup n = none ∧ new.lookup n = none := by
  rw [lookup_maxResourceList]
  cases h : new.lookup n with
  | none => simp
  | some q => cases h2 : list.lookup n <;> simp

/-! ## Folds over the containers of a pod -/

theorem foldl_pair {α β γ : Type} (f : α → γ → α) (g : β → γ → β) (cs : List γ) (s : α × β) :
    cs.foldl (fun acc c => (f acc.1 c, g acc.2 c)) s = (cs.foldl f s.1, cs.foldl g s.2) := by
  induction cs generalizing s with
  | nil => rfl
  | cons c cs ih => simp [List.foldl_cons, ih]

theorem quantityOf_foldl_add (sel : Container → ResourceList) (cs : List Container)
    (r : ResourceList) (n : ResourceName) :
    quantityOf (cs.foldl (fun acc c => addResourceList acc (sel c)) r) n =
      quantityOf r n + (cs.map (fun c => quantityOf (sel c) n)).sum := by
  induction cs generalizing r with
  | nil => simp
  | cons c cs ih =>
    simp only [List.foldl_cons, List.map_cons, List.sum_cons]
    rw [ih, quantityOf_addResourceList]
    ring

theorem quantityOf_foldl_max (sel : Container → ResourceList) (cs : List Container)
    (hcs : ∀ c ∈ cs, NonNegative (sel c)) (r : ResourceList) (n : ResourceName)
    (hr : 0 ≤ quantityOf r n) :
    quantityOf (cs.foldl (fun acc c => maxResourceList acc (sel c)) r) n =
      max (quantityOf r n) ((cs.map (fun c => quantityOf (sel c) n)).foldr max 0) := by
  induction cs generalizing r with
  | nil => simpa using hr
  | cons c cs ih =>
    have hc : 0 ≤ quantityOf (sel c) n := quantityOf_nonneg (hcs c (List.mem_cons_self _ _)) n
    have hstep := quantityOf_maxResourceList r (sel c) n hr hc
    simp only [List.foldl_cons, List.map_cons, List.foldr_cons]
    rw [ih (fun d hd => hcs d (List.mem_cons_of_mem _ hd)) _ (by rw [hstep]; exact le_max_of_le_left hr),
      hstep, max_assoc]

theorem lookup_foldl_eq_none (op : ResourceList → ResourceList → ResourceList)
    (hop : ∀ list new n, (op list new).lookup n = none ↔
      list.lookup n = none ∧ new.lookup n = none)
    (sel : Container → ResourceList) (cs : List Container)
    (r : ResourceList) (n : ResourceName) :
    (cs.foldl (fun acc c => op acc (sel c)) r).lookup n = none ↔
      r.lookup n = none ∧ ∀ c ∈ cs, (sel c).lookup n = none := by
  induction cs generalizing r with
  | nil => simp
  | cons c cs ih =>
    simp only [List.foldl_cons, ih, hop, List.mem_cons, forall_eq_or_imp]
    tauto

theorem sum_quantityOf_nonneg (sel : Container → ResourceList) (cs : List Container)
    (hcs : ∀ c ∈ cs, NonNegative (sel c)) (n : ResourceName) :
    0 ≤ (cs.map (fun c => quantityOf (sel c) n)).sum := by
  apply List.sum_nonneg
  intro x hx
  obtain ⟨c, hc, rfl⟩ := List.mem_map.1 hx
  exact quantityOf_nonneg (hcs c hc) n

/-! ## Effective requests and limits of a pod -/

theorem foldl_add_pair (cs : List Container) (s : ResourceList × ResourceList) :
    cs.foldl (fun acc container =>
      (addResourceList acc.1 container.Resources.Requests,
       addResourceList acc.2 container.Resources.Limits)) s =
    (cs.foldl (fun acc c => addResourceList acc c.Resources.Requests) s.1,
     cs.foldl (fun acc c => addResourceList acc c.Resources.Limits) s.2) :=
  foldl_pair (fun acc c => addResourceList acc c.Resources.Requests)
    (fun acc c => addResourceList acc c.Resources.Limits) cs s

theorem foldl_max_pair (cs : List Container) (s : ResourceList × ResourceList) :
    cs.foldl (fun acc container =>
      (maxResourceList acc.1 container.Resources.Requests,
       maxResourceList acc.2 container.Resources.Limits)) s =
    (cs.foldl (fun acc c => maxResourceList acc c.Resources.Requests) s.1,
     cs.foldl (fun acc c => maxResourceList acc c.Resources.Limits) s.2) :=
  foldl_pair (fun acc c => maxResourceList acc c.Resources.Requests)
    (fun acc c => maxResourceList acc c.Resources.Limits) cs s

/-- C1: for every pod (with the non-negative requests of a stored pod) and every
resource name, the effective request of `podRequestsAndLimits` is the maximum of
the sum of the regular containers' requests and the largest request of a single
init container, plus the pod overhead for that resource (zero when there is
none). -/
theorem podRequestsAndLimits_request (pod : Pod) (name : ResourceName)
    (hpod : NonNegativeRequests pod) :
    quantityOf (podRequestsAndLimits pod).1 name =
      max (sumRequests pod.Spec.Containers name)
          (largestRequest pod.Spec.InitContainers name)
        + overheadOf pod name := by
  have hsum := sum_quantityOf_nonneg (fun c => c.Resources.Requests) _ hpod.1 name
  have hraised :
      quantityOf (pod.Spec.InitContainers.foldl
          (fun acc c => maxResourceList acc c.Resources.Requests)
          (pod.Spec.Containers.foldl
            (fun acc c => addResourceList acc c.Resources.Requests) ∅)) name =
        max (sumRequests pod.Spec.Containers name)
          (largestRequest pod.Spec.InitContainers name) := by
    have hadd := quantityOf_foldl_add (fun c => c.Resources.Requests)
      pod.Spec.Containers ∅ name
    have hzero : quantityOf (∅ : ResourceList) name = 0 := rfl
    rw [hzero, zero_add] at hadd
    rw [quantityOf_foldl_max (fun c => c.Resources.Requests) _ hpod.2 _ name
      (by rw [hadd]; exact hsum), hadd]
    rfl
  unfold podRequestsAndLimits overheadOf
  simp only [foldl_add_pair, foldl_max_pair]
  cases hov : pod.Spec.Overhead with
  | none => simp only [hraised, add_zero]
  | some overhead => simp only [quantityOf_addResourceList, hraised]

/-- C1, the accounting example: cpu is max(300m, 500m) + 10m = 510m and memory
is 50Mi. -/
theorem podRequestsAndLimits_request_witness :
    NonNegativeRequests accountingPod ∧
    quantityOf (podRequestsAndLimits accountingPod).1 "cpu" = 510 ∧
    quantityOf (podRequestsAndLimits accountingPod).1 "memory" = 52428800 :=
  ⟨by decide,
   (podRequestsAndLimits_request accountingPod "cpu" (by decide)).trans (by decide),
   (podRequestsAndLimits_request accountingPod "memory" (by decide)).trans (by decide)⟩

/-- C2: for every pod (with the non-negative limits of a stored pod) and every
resource name, with `L` the maximum of the sum of the regular containers' limits
and the largest limit of a single init container, the effective limit is
`L + overhead` when `L` is not zero and `L` otherwise; and the resource has no
limit at all exactly when no regular or init container names it in its limits,
whatever the overhead names. -/
theorem podRequestsAndLimits_limit (pod : Pod) (name : ResourceName)
    (hpod : NonNegativeLimits pod) :
    (quantityOf (podRequestsAndLimits pod).2 name =
      if max (sumLimits pod.Spec.Containers name)
          (largestLimit pod.Spec.InitContainers name) ≠ 0
      then max (sumLimits pod.Spec.Containers name)
          (largestLimit pod.Spec.InitContainers name) + overheadOf pod name
      else max (sumLimits pod.Spec.Containers name)
          (largestLimit pod.Spec.InitContainers name)) ∧
    ((podRequestsAndLimits pod).2.lookup name = none ↔
      (∀ c ∈ pod.Spec.Containers, c.Resources.Limits.lookup name = none) ∧
      (∀ c ∈ pod.Spec.InitContainers, c.Resources.Limits.lookup name = none)) := by
  have hsum := sum_quantityOf_nonneg (fun c => c.Resources.Limits) _ hpod.1 name
  have hraised :
      quantityOf (pod.Spec.InitContainers.foldl
          (fun acc c => maxResourceList acc c.Resources.Limits)
          (pod.Spec.Containers.foldl
            (fun acc c => addResourceList acc c.Resources.Limits) ∅)) name =
        max (sumLimits pod.Spec.Containers name)
          (largestLimit pod.Spec.InitContainers name) := by
    have hadd := quantityOf_foldl_add (fun c => c.Resources.Limits)
      pod.Spec.Containers ∅ name
    have hzero : quantityOf (∅ : ResourceList) name = 0 := rfl
    rw [hzero, zero_add] at hadd
    rw [quantityOf_foldl_max (fun c => c.Resources.Limits) _ hpod.2 _ name
      (by rw [hadd]; exact hsum), hadd]
    rfl
  have hnone :
      (pod.Spec.InitContainers.foldl
          (fun acc c => maxResourceList acc c.Resources.Limits)
          (pod.Spec.Containers.foldl
            (fun acc c => addResourceList acc c.Resources.Limits) ∅)).lookup name = none ↔
        (∀ c ∈ pod.Spec.Containers, c.Resources.Limits.lookup name = none) ∧
        (∀ c ∈ pod.Spec.InitContainers, c.Resources.Limits.lookup name = none) := by
    rw [lookup_foldl_eq_none maxResourceList lookup_maxResourceList_eq_none,
      lookup_foldl_eq_none addResourceList lookup_addResourceList_eq_none]
    simp
  generalize hL : max (sumLimits pod.Spec.Containers name)
    (largestLimit pod.Spec.InitContainers name) = L at hraised ⊢
  unfold podRequestsAndLimits overheadOf
  simp only [foldl_add_pair, foldl_max_pair]
  cases hov : pod.Spec.Overhead with
  | none =>
    refine ⟨?_, hnone⟩
    simp only [hraised, add_zero, ite_self]
  | some overhead =>
    simp only
    rw [← hnone, lookup_addOverheadToLimit]
    unfold quantityOf at hraised ⊢
    rw [lookup_addOverheadToLimit]
    cases ho : overhead.lookup name with
    | none => simp [hraised]
    | some q =>
      cases hl : AList.lookup name (pod.Spec.InitContainers.foldl
          (fun acc c => maxResourceList acc c.Resources.Limits)
          (pod.Spec.Containers.foldl
            (fun acc c => addResourceList acc c.Resources.Limits) ∅)) with
      | none =>
        rw [hl] at hraised
        simp at hraised
        simp [← hraised]
      | some v =>
        rw [hl] at hraised
        simp at hraised
        subst hraised
        by_cases hv : v = 0
        · simp [hv]
        · simp [hv]

/-- C2 on `limitsPod`: the memory limit gains the overhead, the zero cpu limit
stays zero, and storage, named in the overhead only, has no limit. -/
theorem podRequestsAndLimits_limit_witness :
    NonNegativeLimits limitsPod ∧
    quantityOf (podRequestsAndLimits limitsPod).2 "memory" = 105 ∧
    quantityOf (podRequestsAndLimits limitsPod).2 "cpu" = 0 ∧
    (podRequestsAndLimits limitsPod).2.lookup "storage" = none :=
  ⟨by decide,
   (podRequestsAndLimits_limit limitsPod "memory" (by decide)).1.trans (by decide),
   (podRequestsAndLimits_limit limitsPod "cpu" (by decide)).1.trans (by decide),
   (podRequestsAndLimits_limit limitsPod "storage" (by decide)).2.2 (by decide)⟩

/-! ## Update notifications -/

theorem lt_freshAddr (live : List Nat) (a : Nat) (h : a ∈ live) : a < freshAddr live := by
  unfold freshAddr
  induction live with
  | nil => cases h
  | cons b live ih =>
    simp only [List.foldr_cons]
    rcases List.mem_cons.1 h with rfl | h'
    · omega
    · have := ih h'
      omega

/-- A state pointer held by a descriptor is never the address of a variable
declared after the descriptor was built. -/
theorem ptrEq_fresh (c : Cluster) (live : List Nat) (k : Nat) (v : ClusterState)
    (hlive : ∀ a ∈ c.addrs, a ∈ live) :
    ptrEq c.Status.State (some { addr := freshAddr live + k, val := v }) = false := by
  unfold Cluster.addrs at hlive
  cases hs : c.Status.State with
  | none => rfl
  | some p =>
    rw [hs] at hlive
    have hlt := lt_freshAddr live p.addr (hlive _ (List.mem_singleton.2 rfl))
    simp only [ptrEq, beq_eq_false_iff_ne, ne_eq]
    omega

/-- The handler of update notifications never changes the manager: the
comparison of the old state pointer with the address of the local variable
fails for every descriptor. -/
theorem OnClusterUpdate_unchanged (m : SyncMgr) (oldObj newObj : Cluster) :
    m.OnClusterUpdate oldObj newObj = m := by
  have h := ptrEq_fresh oldObj (oldObj.addrs ++ newObj.addrs) 0 ClusterInitFailed
    (fun a ha => List.mem_append_left _ ha)
  unfold SyncMgr.OnClusterUpdate
  simp only [Nat.add_zero] at h
  simp only [h, Bool.false_and]
  rfl

/-- C3, on the code: an update from a descriptor in state InitFailed to one in
state Processing, with a key function that derives a key, adds nothing to the
queue. -/
theorem OnClusterUpdate_retry_not_enqueued :
    (clusterNamed "A" (some { addr := 1, val := ClusterInitFailed })).state =
        some ClusterInitFailed ∧
    (clusterNamed "A" (some { addr := 2, val := ClusterProcessing })).state =
        some ClusterProcessing ∧
    nameKeyFunc (clusterNamed "A" (some { addr := 2, val := ClusterProcessing })) =
        Except.ok (QueueKey.clusterWide { Name := "A" }) ∧
    ((syncMgrOf [] false).OnClusterUpdate
        (clusterNamed "A" (some { addr := 1, val := ClusterInitFailed }))
        (clusterNamed "A" (some { addr := 2, val := ClusterProcessing }))).Worker.added = [] := by
  refine ⟨rfl, rfl, rfl, ?_⟩
  rw [OnClusterUpdate_unchanged]
  rfl

/-- C4: for every update notification whose transition is not from state
InitFailed to state Processing, `OnClusterUpdate` enqueues nothing: the queue,
and the manager as a whole, is left unchanged. -/
theorem OnClusterUpdate_other_transition (m : SyncMgr) (oldObj newObj : Cluster)
    (_h : ¬ (oldObj.state = some ClusterInitFailed ∧ newObj.state = some ClusterProcessing)) :
    (m.OnClusterUpdate oldObj newObj).Worker = m.Worker ∧
    m.OnClusterUpdate oldObj newObj = m := by
  have hm := OnClusterUpdate_unchanged m oldObj newObj
  exact ⟨by rw [hm], hm⟩

/-- C4 on a Normal to Normal update and on an update with unset states. -/
theorem OnClusterUpdate_other_transition_witness :
    ((syncMgrOf [] false).OnClusterUpdate
        (clusterNamed "A" (some { addr := 1, val := ClusterNormal }))
        (clusterNamed "A" (some { addr := 2, val := ClusterNormal }))).Worker =
      (syncMgrOf [] false).Worker ∧
    ((syncMgrOf [] false).OnClusterUpdate
        (clusterNamed "A" none) (clusterNamed "A" none)).Worker =
      (syncMgrOf [] false).Worker :=
  ⟨(OnClusterUpdate_other_transition (syncMgrOf [] false)
      (clusterNamed "A" (some { addr := 1, val := ClusterNormal }))
      (clusterNamed "A" (some { addr := 2, val := ClusterNormal })) (by decide)).1,
   (OnClusterUpdate_other_transition (syncMgrOf [] false)
      (clusterNamed "A" none) (clusterNamed "A" none) (by decide)).1⟩

/-! ## Reconciliation -/

/-- When the read of the cache fails with not-found, the registry removal is
called with the name of the descriptor that was never filled in, the empty
name, and its error is dropped. -/
theorem ReconcileCluster_not_found {σ : Type} (mgr : MultiClustersMgr σ) (m : SyncMgr)
    (ckey : ClusterWideKey) (s : σ)
    (h : m.cache.objects ckey.Name = Except.error CacheError.notFound) :
    m.ReconcileCluster mgr (QueueKey.clusterWide ckey) s =
      { err := none, registry := (mgr.Del "" s).1,
        calls := [SyncCall.CacheGet ckey.Name, SyncCall.Del ""] } := by
  simp [SyncMgr.ReconcileCluster, Cache.Get, h, IsNotFound, Cluster.zero]

/-- C5, on the code: with no descriptor "A" in the mirrored cache and an entry
"A" in the registry, reconciling the key "A" removes the entry of the empty
name and leaves the entry "A" in place. -/
theorem ReconcileCluster_deleted_entry_stays :
    (cacheOf []).objects "A" = Except.error CacheError.notFound ∧
    ((syncMgrOf [] false).ReconcileCluster (specManager (registryEnvOf []))
        (QueueKey.clusterWide { Name := "A" }) (registryWith "A")).calls =
      [SyncCall.CacheGet "A", SyncCall.Del ""] ∧
    (((syncMgrOf [] false).ReconcileCluster (specManager (registryEnvOf []))
        (QueueKey.clusterWide { Name := "A" }) (registryWith "A")).registry.lookup "A").isSome
      = true := by
  refine ⟨rfl, ?_, ?_⟩
  · rw [ReconcileCluster_not_found _ _ _ _ rfl]
  · rw [ReconcileCluster_not_found _ _ _ _ rfl]
    decide

/-- C6: for every key whose name is not found in the mirrored cache,
`ReconcileCluster` returns no error, whatever the registry operations do or
report, and so does a second reconcile of the same key on the registry the
first one left; a read that fails for another reason returns that error. -/
theorem ReconcileCluster_not_found_succeeds {σ : Type} (mgr : MultiClustersMgr σ)
    (m : SyncMgr) (ckey : ClusterWideKey) (s : σ) :
    (m.cache.objects ckey.Name = Except.error CacheError.notFound →
      (m.ReconcileCluster mgr (QueueKey.clusterWide ckey) s).err = none ∧
      (m.ReconcileCluster mgr (QueueKey.clusterWide ckey)
        (m.ReconcileCluster mgr (QueueKey.clusterWide ckey) s).registry).err = none) ∧
    (∀ msg, m.cache.objects ckey.Name = Except.error (CacheError.other msg) →
      (m.ReconcileCluster mgr (QueueKey.clusterWide ckey) s).err = some msg) ∧
    (∀ e, m.cache.objects ckey.Name = Except.error e →
      ((m.ReconcileCluster mgr (QueueKey.clusterWide ckey) s).err ≠ none ↔
        e ≠ CacheError.notFound)) := by
  refine ⟨fun h => ?_, fun msg h => ?_, fun e h => ?_⟩
  · simp [ReconcileCluster_not_found mgr m ckey _ h]
  · simp [SyncMgr.ReconcileCluster, Cache.Get, h, IsNotFound, CacheError.text]
  · cases e with
    | notFound => simp [ReconcileCluster_not_found mgr m ckey _ h]
    | other msg => simp [SyncMgr.ReconcileCluster, Cache.Get, h, IsNotFound]

/-- C6 with a registry whose removal reports an error for an absent entry: the
key "A" is not in the cache, the removal fails, and both reconciles succeed. -/
theorem ReconcileCluster_not_found_succeeds_witness :
    ((strictDelManager (registryEnvOf [])).Del "" (registryWith "A")).2 = some "not found" ∧
    ((syncMgrOf [] false).ReconcileCluster (strictDelManager (registryEnvOf []))
        (QueueKey.clusterWide { Name := "A" }) (registryWith "A")).err = none ∧
    ((syncMgrOf [] false).ReconcileCluster (strictDelManager (registryEnvOf []))
        (QueueKey.clusterWide { Name := "A" })
        ((syncMgrOf [] false).ReconcileCluster (strictDelManager (registryEnvOf []))
          (QueueKey.clusterWide { Name := "A" }) (registryWith "A")).registry).err = none :=
  ⟨by decide,
   (ReconcileCluster_not_found_succeeds (strictDelManager (registryEnvOf []))
      (syncMgrOf [] false) { Name := "A" } (registryWith "A")).1 rfl⟩

/-- C7, on the code: a payload that is not a `ClusterWideKey` makes
`ReconcileCluster` return an error. -/
theorem ReconcileCluster_invalid_key_reports_error :
    ((syncMgrOf [] false).ReconcileCluster (specManager (registryEnvOf []))
        (QueueKey.other "not a key") (registryWith "A")).err ≠ none := by
  decide

/-- C7 as amended: for every payload that is not a `ClusterWideKey`,
`ReconcileCluster` returns the error "invalid key", issues no call to the cache
or to the registry, and leaves the registry as it was. -/
theorem ReconcileCluster_invalid_key {σ : Type} (mgr : MultiClustersMgr σ) (m : SyncMgr)
    (payload : String) (s : σ) :
    (m.ReconcileCluster mgr (QueueKey.other payload) s).err = some "invalid key" ∧
    (m.ReconcileCluster mgr (QueueKey.other payload) s).calls = [] ∧
    (m.ReconcileCluster mgr (QueueKey.other payload) s).registry = s :=
  ⟨rfl, rfl, rfl⟩

/-- C8, on the code: with monitoring enabled, a descriptor "A" in the cache, a
client that can be built and a health scout that does not start,
`ReconcileCluster` returns an error and leaves the entry "A", absent before the
call, installed in the registry. -/
theorem ReconcileCluster_scout_failure_keeps_entry :
    ((syncMgrOf [clusterNamed "A" none] true).ReconcileCluster
        (specManager (registryEnvOf ["A"]))
        (QueueKey.clusterWide { Name := "A" }) ∅).err = some "scout failed" ∧
    (∅ : Registry).lookup "A" = none ∧
    (((syncMgrOf [clusterNamed "A" none] true).ReconcileCluster
        (specManager (registryEnvOf ["A"]))
        (QueueKey.clusterWide { Name := "A" }) ∅).registry.lookup "A").isSome = true :=
  ⟨by decide, rfl, by decide⟩

/-- C8 as amended: for every key whose descriptor is found in the mirrored
cache, when `ReconcileCluster` returns an error, either the client could not be
built and the registry is the same as before the call, or monitoring is enabled,
the entry was installed, the health scout did not start, and the registry is
the one before the call with the new entry installed. -/
theorem ReconcileCluster_failure_state (env : RegistryEnv) (m : SyncMgr)
    (ckey : ClusterWideKey) (cluster : Cluster) (reg : Registry)
    (hfound : m.cache.objects ckey.Name = Except.ok cluster)
    (herr : (m.ReconcileCluster (specManager env) (QueueKey.clusterWide ckey) reg).err ≠ none) :
    (∃ e, env.buildClient cluster = Except.error e ∧
      (m.ReconcileCluster (specManager env) (QueueKey.clusterWide ckey) reg).registry = reg) ∨
    (∃ cli, m.isWithScout = true ∧ env.buildClient cluster = Except.ok cli ∧
      env.startScout cluster.Name ≠ none ∧
      (m.ReconcileCluster (specManager env) (QueueKey.clusterWide ckey) reg).registry =
        reg.insert cluster.Name
          { Name := cluster.Name, Client := cli, RawCluster := cluster, Scout := true }) := by
  cases hb : env.buildClient cluster with
  | error e =>
    left
    refine ⟨e, rfl, ?_⟩
    cases hs : m.isWithScout <;>
      simp [SyncMgr.ReconcileCluster, Cache.Get, hfound, specManager, hb, hs]
  | ok cli =>
    right
    cases hs : m.isWithScout with
    | false =>
      exfalso
      apply herr
      simp [SyncMgr.ReconcileCluster, Cache.Get, hfound, specManager, hb, hs]
    | true =>
      cases hsc : env.startScout cluster.Name with
      | none =>
        exfalso
        apply herr
        simp [SyncMgr.ReconcileCluster, Cache.Get, hfound, specManager, hb, hs, hsc]
      | some e =>
        refine ⟨cli, rfl, rfl, by simp, ?_⟩
        simp [SyncMgr.ReconcileCluster, Cache.Get, hfound, specManager, hb, hs, hsc]

/-- C8 as amended, when no client can be built for the descriptor "A": the
reconcile fails and the registry, which held an entry "B", is unchanged. -/
theorem ReconcileCluster_failure_state_witness :
    ((syncMgrOf [clusterNamed "A" none] false).ReconcileCluster (specManager brokenRegistryEnv)
        (QueueKey.clusterWide { Name := "A" }) (registryWith "B")).err ≠ none ∧
    ((syncMgrOf [clusterNamed "A" none] false).ReconcileCluster (specManager brokenRegistryEnv)
        (QueueKey.clusterWide { Name := "A" }) (registryWith "B")).registry =
      registryWith "B" := by
  have herr : ((syncMgrOf [clusterNamed "A" none] false).ReconcileCluster
      (specManager brokenRegistryEnv)
      (QueueKey.clusterWide { Name := "A" }) (registryWith "B")).err ≠ none := by decide
  refine ⟨herr, ?_⟩
  rcases ReconcileCluster_failure_state brokenRegistryEnv (syncMgrOf [clusterNamed "A" none] false)
    { Name := "A" } (clusterNamed "A" none) (registryWith "B") rfl herr with h | h
  · exact h.choose_spec.2
  · obtain ⟨cli, hs, _⟩ := h
    exact absurd hs (by decide)

/-! ## Aggregation -/

theorem makeLivedataInfo_err_none (cli : Client) (cluster : String) (opts : clusterInfoOpts)
    (u : Units) (h : listingsSucceed cli opts = true) :
    (makeLivedataInfo cli cluster opts u).1.2 = none := by
  unfold listingsSucceed at h
  unfold makeLivedataInfo
  cases hn : cli.Nodes opts.nodeLabelSelector with
  | error e => simp [hn] at h
  | ok nodes =>
    cases hs : cli.Namespaces with
    | error e => simp [hs] at h
    | ok ns =>
      cases hp : cli.Pods with
      | error e => simp [hp] at h
      | ok pods => simp

theorem makeLivedataInfo_calls (cli : Client) (cluster : String) (opts : clusterInfoOpts)
    (u : Units) :
    Call.ListNodeMetrics cluster ∈ (makeLivedataInfo cli cluster opts u).2 ∧
    ∀ c ∈ (makeLivedataInfo cli cluster opts u).2, isLiveDataCall cluster c = true := by
  unfold makeLivedataInfo
  cases hn : cli.Nodes opts.nodeLabelSelector with
  | error e => simp [isLiveDataCall]
  | ok nodes =>
    cases hs : cli.Namespaces with
    | error e => simp [isLiveDataCall]
    | ok ns =>
      cases hp : cli.Pods with
      | error e => simp [isLiveDataCall]
      | ok pods => simp [isLiveDataCall]

theorem append_if_passes (opts : clusterInfoOpts) (status : String) (infos : List clusterInfo)
    (info : clusterInfo) (calls : List Call) :
    (if opts.statusFilter.length = 0 then
        ((Except.ok (infos ++ [info]) : Except String (List clusterInfo)), calls)
      else if status = opts.statusFilter then (Except.ok (infos ++ [info]), calls)
      else (Except.ok infos, calls)) =
    (Except.ok (infos ++ if passesFilter opts status then [info] else []), calls) := by
  unfold passesFilter
  by_cases h1 : opts.statusFilter.length = 0
  · simp [h1]
  · by_cases h2 : status = opts.statusFilter
    · simp [h1, h2]
    · simp [h1, h2]

theorem makeMetadataInfo_error (env : FleetEnv) (name : String) (opts : clusterInfoOpts)
    (h : metadataFound env name = false) :
    ∃ md e, makeMetadataInfo env name opts = ((md, some e), [Call.PivotGet name]) := by
  unfold metadataFound at h
  unfold makeMetadataInfo
  cases hp : env.pivotGet name with
  | error e => exact ⟨_, _, rfl⟩
  | ok cluster => simp [hp] at h

theorem makeMetadataInfo_ok (env : FleetEnv) (name : String) (opts : clusterInfoOpts)
    (cluster : Cluster) (hp : env.pivotGet name = Except.ok cluster) :
    ∃ md, makeMetadataInfo env name opts = ((md, none), [Call.PivotGet name]) ∧
      md.ClusterName = name ∧ md.Status = cluster.state.getD ClusterProcessing := by
  unfold makeMetadataInfo
  simp only [hp]
  refine ⟨_, rfl, rfl, ?_⟩
  unfold Cluster.state
  cases cluster.Status.State <;> rfl

/-- The three ways a pass of the loop body ends: the metadata fetch failed; the
cluster is listed without live data; live data is collected. -/
theorem makeClusterInfosBody_cases (env : FleetEnv) (u : Units) (opts : clusterInfoOpts)
    (item : Cluster) (infos : List clusterInfo) :
    (metadataFound env item.Name = false ∧
      makeClusterInfosBody env u opts item infos =
        (Except.ok infos, [Call.PivotGet item.Name])) ∨
    (metadataFound env item.Name = true ∧ collectsLiveData env opts item.Name = false ∧
      ∃ info : clusterInfo,
        info.clusterMetaInfo.ClusterName = item.Name ∧
        info.clusterMetaInfo.Status = reportedStatus env item.Name ∧
        info.clusterLivedataInfo = clusterLivedataInfo.zero ∧
        makeClusterInfosBody env u opts item infos =
          (Except.ok
            (infos ++ if passesFilter opts (reportedStatus env item.Name) then [info] else []),
           [Call.PivotGet item.Name])) ∨
    (collectsLiveData env opts item.Name = true ∧
      ∃ (ic : InternalCluster) (md : clusterMetaInfo),
        (env.registryGet item.Name).1 = some ic ∧
        md.ClusterName = item.Name ∧
        md.Status = reportedStatus env item.Name ∧
        makeClusterInfosBody env u opts item infos =
          (match (makeLivedataInfo ic.Client item.Name opts u).1.2 with
            | some err => Except.error err
            | none =>
              Except.ok
                (infos ++ if passesFilter opts (reportedStatus env item.Name) then
                  [{ clusterMetaInfo := md,
                     clusterLivedataInfo := (makeLivedataInfo ic.Client item.Name opts u).1.1 }]
                  else []),
           Call.PivotGet item.Name :: (makeLivedataInfo ic.Client item.Name opts u).2)) := by
  cases hp : env.pivotGet item.Name with
  | error e =>
    left
    have hf : metadataFound env item.Name = false := by simp [metadataFound, hp]
    obtain ⟨md, e', hmd⟩ := makeMetadataInfo_error env item.Name opts hf
    exact ⟨hf, by simp only [makeClusterInfosBody, hmd]⟩
  | ok cluster =>
    right
    have hf : metadataFound env item.Name = true := by simp [metadataFound, hp]
    obtain ⟨md, hmd, hname, hstatus⟩ := makeMetadataInfo_ok env item.Name opts cluster hp
    cases hg : (env.registryGet item.Name).1 with
    | none =>
      left
      refine ⟨hf, by simp [collectsLiveData, inRegistry, hg], ?_⟩
      simp only [makeClusterInfosBody, hmd, hg, Option.isSome_none, Bool.false_and,
        append_if_passes]
      have hrep : reportedStatus env item.Name = md.Status := by
        simp [reportedStatus, hp, inRegistry, hg, hstatus]
      rw [hrep]
      exact ⟨{ clusterMetaInfo := md, clusterLivedataInfo := clusterLivedataInfo.zero },
        hname, rfl, rfl, rfl⟩
    | some ic =>
      cases hge : (env.registryGet item.Name).2 with
      | some e =>
        left
        have hrep : reportedStatus env item.Name = ClusterAbnormal := by
          simp [reportedStatus, hp, inRegistry, hg, hge]
        refine ⟨hf, by simp [collectsLiveData, hrep], ?_⟩
        simp only [makeClusterInfosBody, hmd, hg, hge, Option.isSome_some, Bool.and_self,
          if_true, decide_True, append_if_passes]
        rw [hrep]
        exact ⟨{ clusterMetaInfo := { md with Status := ClusterAbnormal },
                 clusterLivedataInfo := clusterLivedataInfo.zero }, hname, rfl, rfl, rfl⟩
      | none =>
        have hrep : reportedStatus env item.Name = md.Status := by
          simp [reportedStatus, hp, inRegistry, hg, hge, hstatus]
        by_cases hab : md.Status = ClusterAbnormal
        · left
          have hd : decide (md.Status = ClusterAbnormal) = true := decide_eq_true hab
          refine ⟨hf, by simp [collectsLiveData, hrep, hab], ?_⟩
          simp only [makeClusterInfosBody, hmd, hg, hge, Option.isSome_some, Option.isSome_none,
            Bool.and_false, hd, append_if_passes]
          rw [hrep]
          refine ⟨{ clusterMetaInfo := md, clusterLivedataInfo := clusterLivedataInfo.zero },
            hname, rfl, rfl, ?_⟩
          split
          · rename_i heq
            simp [hab] at heq
          · rfl
        · have hd : decide (md.Status = ClusterAbnormal) = false := decide_eq_false hab
          cases hpr : opts.pruneInfo with
          | true =>
            left
            refine ⟨hf, by simp [collectsLiveData, hpr], ?_⟩
            simp only [makeClusterInfosBody, hmd, hg, hge, Option.isSome_some,
              Option.isSome_none, Bool.and_false, hd, hpr, if_true,
              append_if_passes]
            rw [hrep]
            refine ⟨{ clusterMetaInfo := md, clusterLivedataInfo := clusterLivedataInfo.zero },
              hname, rfl, rfl, ?_⟩
            split <;> rfl
          | false =>
            right
            refine ⟨by simp [collectsLiveData, hf, inRegistry, hg, hrep, hab, hpr],
              ic, md, rfl, hname, hrep.symm, ?_⟩
            simp only [makeClusterInfosBody, hmd, hg, hge, Option.isSome_some,
              Option.isSome_none, Bool.and_false, hd, hpr]
            split
            · rename_i ic0 heq1 heq2
              cases heq1
              cases hl : (makeLivedataInfo ic.Client item.Name opts u).1.2 with
              | some err => simp
              | none => simp [append_if_passes, hrep]
            · rename_i hne
              exact (hne ic rfl (by simpa using hab)).elim

theorem makeClusterInfosLoop_cons (env : FleetEnv) (u : Units) (opts : clusterInfoOpts)
    (item : Cluster) (rest : List Cluster) (infos : List clusterInfo) (calls : List Call) :
    makeClusterInfosLoop env u opts (item :: rest) infos calls =
      match makeClusterInfosBody env u opts item infos with
      | (Except.error err, issued) => (Except.error err, calls ++ issued)
      | (Except.ok infos, issued) =>
        makeClusterInfosLoop env u opts rest infos (calls ++ issued) := rfl

/-- When no listing fails, the loop returns the infos it started from followed
by one info for every included item, in order, each with the reported status of
its cluster. -/
theorem makeClusterInfosLoop_filtered (env : FleetEnv) (u : Units) (opts : clusterInfoOpts)
    (items : List Cluster) (hno : NoListingFails env opts items)
    (infos : List clusterInfo) (calls : List Call) :
    ∃ out tr, makeClusterInfosLoop env u opts items infos calls = (Except.ok (infos ++ out), tr) ∧
      out.map (fun i => i.clusterMetaInfo.ClusterName) =
        (items.filter (included env opts)).map (fun c => c.Name) ∧
      ∀ i ∈ out, i.clusterMetaInfo.Status = reportedStatus env i.clusterMetaInfo.ClusterName := by
  induction items generalizing infos calls with
  | nil => exact ⟨[], calls, by simp [makeClusterInfosLoop], rfl, by simp⟩
  | cons item rest ih =>
    have hrest : NoListingFails env opts rest :=
      fun c hmem => hno c (List.mem_cons_of_mem _ hmem)
    rw [makeClusterInfosLoop_cons]
    rcases makeClusterInfosBody_cases env u opts item infos with
      ⟨hf, hb⟩ | ⟨hf, _, info, hname, hstatus, _, hb⟩ | ⟨hc, ic, md, hg, hname, hstatus, hb⟩
    · rw [hb]
      obtain ⟨out, tr, hl, hn, hs⟩ := ih hrest infos (calls ++ [Call.PivotGet item.Name])
      refine ⟨out, tr, hl, ?_, hs⟩
      rw [hn, List.filter_cons]
      simp [included, hf]
    · rw [hb]
      by_cases hpass : passesFilter opts (reportedStatus env item.Name) = true
      · obtain ⟨out, tr, hl, hn, hs⟩ :=
          ih hrest (infos ++ [info]) (calls ++ [Call.PivotGet item.Name])
        refine ⟨info :: out, tr, ?_, ?_, ?_⟩
        · simp only [hpass, if_true]
          rw [hl]
          simp
        · rw [List.filter_cons]
          simp [included, hf, hpass, hn, hname]
        · intro i hi
          rcases List.mem_cons.1 hi with rfl | hi
          · rw [hstatus, hname]
          · exact hs i hi
      · obtain ⟨out, tr, hl, hn, hs⟩ := ih hrest infos (calls ++ [Call.PivotGet item.Name])
        refine ⟨out, tr, ?_, ?_, hs⟩
        · simp only [hpass]
          simpa using hl
        · rw [hn, List.filter_cons]
          simp [included, hpass]
    · have hok : listingsSucceed ic.Client opts = true := by
        have := hno item (List.mem_cons_self _ _) hc
        simpa [listingsSucceedFor, hg] using this
      have hf : metadataFound env item.Name = true := by
        simp only [collectsLiveData, Bool.and_eq_true] at hc
        exact hc.1.1.1
      rw [hb, makeLivedataInfo_err_none ic.Client item.Name opts u hok]
      by_cases hpass : passesFilter opts (reportedStatus env item.Name) = true
      · obtain ⟨out, tr, hl, hn, hs⟩ :=
          ih hrest (infos ++
            [clusterInfo.mk md (makeLivedataInfo ic.Client item.Name opts u).1.1])
            (calls ++ Call.PivotGet item.Name :: (makeLivedataInfo ic.Client item.Name opts u).2)
        refine ⟨clusterInfo.mk md (makeLivedataInfo ic.Client item.Name opts u).1.1 :: out,
          tr, ?_, ?_, ?_⟩
        · simp only [hpass, if_true]
          rw [hl]
          simp
        · rw [List.filter_cons]
          simp [included, hf, hpass, hn, hname]
        · intro i hi
          rcases List.mem_cons.1 hi with rfl | hi
          · simp only [hstatus, hname]
          · exact hs i hi
      · obtain ⟨out, tr, hl, hn, hs⟩ := ih hrest infos
          (calls ++ Call.PivotGet item.Name :: (makeLivedataInfo ic.Client item.Name opts u).2)
        refine ⟨out, tr, ?_, ?_, hs⟩
        · simp only [hpass]
          simpa using hl
        · rw [hn, List.filter_cons]
          simp [included, hpass]

theorem isLiveDataCall_name (a b : String) (c : Call) (ha : isLiveDataCall a c = true)
    (hb : isLiveDataCall b c = true) : a = b := by
  cases c <;> simp_all [isLiveDataCall]

/-- What one pass of the loop body issues and appends. -/
theorem makeClusterInfosBody_facts (env : FleetEnv) (u : Units) (opts : clusterInfoOpts)
    (item : Cluster) (infos : List clusterInfo) :
    (∀ name c, c ∈ (makeClusterInfosBody env u opts item infos).2 →
      isLiveDataCall name c = true →
        item.Name = name ∧ collectsLiveData env opts name = true) ∧
    (collectsLiveData env opts item.Name = true →
      Call.ListNodeMetrics item.Name ∈ (makeClusterInfosBody env u opts item infos).2) ∧
    (∀ out, (makeClusterInfosBody env u opts item infos).1 = Except.ok out →
      ∀ i ∈ out, i ∈ infos ∨
        ((collectsLiveData env opts i.clusterMetaInfo.ClusterName = false →
            i.clusterLivedataInfo = clusterLivedataInfo.zero) ∧
         (collectsLiveData env opts i.clusterMetaInfo.ClusterName = true →
            ∃ ic, (env.registryGet i.clusterMetaInfo.ClusterName).1 = some ic ∧
              i.clusterLivedataInfo =
                (makeLivedataInfo ic.Client i.clusterMetaInfo.ClusterName opts u).1.1))) := by
  rcases makeClusterInfosBody_cases env u opts item infos with
    ⟨hf, hb⟩ | ⟨hf, hnc, info, hname, hstatus, hzero, hb⟩ | ⟨hc, ic, md, hg, hname, hstatus, hb⟩
  · rw [hb]
    refine ⟨?_, ?_, ?_⟩
    · intro name c hmem hlive
      simp only [List.mem_singleton] at hmem
      subst hmem
      simp [isLiveDataCall] at hlive
    · intro hc
      simp [collectsLiveData, hf] at hc
    · intro out hout i hi
      simp only [Except.ok.injEq] at hout
      subst hout
      exact Or.inl hi
  · rw [hb]
    refine ⟨?_, ?_, ?_⟩
    · intro name c hmem hlive
      simp only [List.mem_singleton] at hmem
      subst hmem
      simp [isLiveDataCall] at hlive
    · intro hc
      rw [hnc] at hc
      cases hc
    · intro out hout i hi
      simp only [Except.ok.injEq] at hout
      subst hout
      rcases List.mem_append.1 hi with hi | hi
      · exact Or.inl hi
      · right
        have hi' : i = info := by
          by_cases hp : passesFilter opts (reportedStatus env item.Name) = true
          · simpa [hp] using hi
          · simp [hp] at hi
        subst hi'
        rw [hname]
        exact ⟨fun _ => hzero, fun h => by rw [hnc] at h; cases h⟩
  · have hcalls := makeLivedataInfo_calls ic.Client item.Name opts u
    rw [hb]
    refine ⟨?_, ?_, ?_⟩
    · intro name c hmem hlive
      rcases List.mem_cons.1 hmem with rfl | hmem
      · simp [isLiveDataCall] at hlive
      · have hn := isLiveDataCall_name _ _ c (hcalls.2 c hmem) hlive
        subst hn
        exact ⟨rfl, hc⟩
    · intro _
      exact List.mem_cons_of_mem _ hcalls.1
    · intro out hout i hi
      cases hl : (makeLivedataInfo ic.Client item.Name opts u).1.2 with
      | some err => simp [hl] at hout
      | none =>
        simp only [hl, Except.ok.injEq] at hout
        subst hout
        rcases List.mem_append.1 hi with hi | hi
        · exact Or.inl hi
        · right
          have hi' : i = clusterInfo.mk md (makeLivedataInfo ic.Client item.Name opts u).1.1 := by
            by_cases hp : passesFilter opts (reportedStatus env item.Name) = true
            · simpa [hp] using hi
            · simp [hp] at hi
          subst hi'
          simp only [hname]
          exact ⟨fun h => (by rw [hc] at h; cases h), fun _ => ⟨ic, hg, rfl⟩⟩

/-- The calls issued so far stay in the trace of the loop. -/
theorem makeClusterInfosLoop_calls_mono (env : FleetEnv) (u : Units) (opts : clusterInfoOpts)
    (items : List Cluster) (infos : List clusterInfo) (calls : List Call) :
    ∀ c ∈ calls, c ∈ (makeClusterInfosLoop env u opts items infos calls).2 := by
  induction items generalizing infos calls with
  | nil => intro c hc; exact hc
  | cons item rest ih =>
    intro c hc
    rw [makeClusterInfosLoop_cons]
    rcases hb : makeClusterInfosBody env u opts item infos with ⟨res, issued⟩
    cases res with
    | error err => exact List.mem_append_left _ hc
    | ok infos2 => exact ih infos2 (calls ++ issued) c (List.mem_append_left _ hc)

/-- A live-data query in the trace of the loop was issued before the loop or
belongs to an item for which live data is collected. -/
theorem makeClusterInfosLoop_live_calls (env : FleetEnv) (u : Units) (opts : clusterInfoOpts)
    (items : List Cluster) (infos : List clusterInfo) (calls : List Call)
    (name : String) (c : Call)
    (hc : c ∈ (makeClusterInfosLoop env u opts items infos calls).2)
    (hlive : isLiveDataCall name c = true) :
    c ∈ calls ∨ ((∃ item ∈ items, item.Name = name) ∧ collectsLiveData env opts name = true) := by
  induction items generalizing infos calls with
  | nil => exact Or.inl hc
  | cons item rest ih =>
    have hfacts := (makeClusterInfosBody_facts env u opts item infos).1 name c
    rw [makeClusterInfosLoop_cons] at hc
    rcases hb : makeClusterInfosBody env u opts item infos with ⟨res, issued⟩
    rw [hb] at hc hfacts
    have hissued : c ∈ calls ++ issued →
        c ∈ calls ∨ ((∃ it ∈ item :: rest, it.Name = name) ∧
          collectsLiveData env opts name = true) := by
      intro h
      rcases List.mem_append.1 h with h | h
      · exact Or.inl h
      · have := hfacts h hlive
        exact Or.inr ⟨⟨item, List.mem_cons_self _ _, this.1⟩, this.2⟩
    cases res with
    | error err => exact hissued hc
    | ok infos2 =>
      rcases ih infos2 (calls ++ issued) hc with h | ⟨⟨it, hit, hn⟩, hcol⟩
      · exact hissued h
      · exact Or.inr ⟨⟨it, List.mem_cons_of_mem _ hit, hn⟩, hcol⟩

/-- When the loop returns a list, live data was queried for every item for which
it is collected, and every info appended by the loop carries the live data of
its cluster when it is collected and the zero value otherwise. -/
theorem makeClusterInfosLoop_ok (env : FleetEnv) (u : Units) (opts : clusterInfoOpts)
    (items : List Cluster) (infos : List clusterInfo) (calls : List Call)
    (out : List clusterInfo)
    (hok : (makeClusterInfosLoop env u opts items infos calls).1 = Except.ok out) :
    (∀ item ∈ items, collectsLiveData env opts item.Name = true →
      Call.ListNodeMetrics item.Name ∈ (makeClusterInfosLoop env u opts items infos calls).2) ∧
    (∀ i ∈ out, i ∈ infos ∨
        ((collectsLiveData env opts i.clusterMetaInfo.ClusterName = false →
            i.clusterLivedataInfo = clusterLivedataInfo.zero) ∧
         (collectsLiveData env opts i.clusterMetaInfo.ClusterName = true →
            ∃ ic, (env.registryGet i.clusterMetaInfo.ClusterName).1 = some ic ∧
              i.clusterLivedataInfo =
                (makeLivedataInfo ic.Client i.clusterMetaInfo.ClusterName opts u).1.1))) := by
  induction items generalizing infos calls with
  | nil =>
    simp only [makeClusterInfosLoop, Except.ok.injEq] at hok
    subst hok
    exact ⟨fun item h => (by cases h), fun i hi => Or.inl hi⟩
  | cons item rest ih =>
    have hfacts := makeClusterInfosBody_facts env u opts item infos
    rw [makeClusterInfosLoop_cons] at hok ⊢
    rcases hb : makeClusterInfosBody env u opts item infos with ⟨res, issued⟩
    rw [hb] at hok hfacts
    cases res with
    | error err => simp at hok
    | ok infos2 =>
      simp only at hok ⊢
      obtain ⟨ih1, ih2⟩ := ih infos2 (calls ++ issued) hok
      refine ⟨?_, ?_⟩
      · intro it hit hcol
        rcases List.mem_cons.1 hit with rfl | hit
        · exact makeClusterInfosLoop_calls_mono env u opts rest infos2 (calls ++ issued) _
            (List.mem_append_right _ (hfacts.2.1 hcol))
        · exact ih1 it hit hcol
      · intro i hi
        rcases ih2 i hi with h | h
        · exact hfacts.2.2 infos2 rfl i h
        · exact Or.inr h

/-- C9: for every cluster list and every filter, when no live-data listing
fails, `makeClusterInfos` returns a list that holds, in input order and once per
input item, exactly the clusters whose metadata fetch succeeded and whose
reported status passes the status filter (every status passes an empty filter);
each info carries the reported status of its cluster, and a cluster whose
metadata fetch fails is left out without failing the call. -/
theorem makeClusterInfos_filtered (env : FleetEnv) (u : Units) (clusters : ClusterList)
    (opts : clusterInfoOpts) (hno : NoListingFails env opts clusters.Items) :
    ∃ infos, (makeClusterInfos env u clusters opts).1 = Except.ok infos ∧
      infos.map (fun i => i.clusterMetaInfo.ClusterName) =
        (clusters.Items.filter
          (fun item => metadataFound env item.Name &&
            passesFilter opts (reportedStatus env item.Name))).map (fun c => c.Name) ∧
      ∀ i ∈ infos,
        i.clusterMetaInfo.Status = reportedStatus env i.clusterMetaInfo.ClusterName := by
  obtain ⟨out, tr, hl, hn, hs⟩ :=
    makeClusterInfosLoop_filtered env u opts clusters.Items hno [] []
  refine ⟨out, ?_, hn, hs⟩
  unfold makeClusterInfos
  rw [hl]
  simp

/-- C9, the filtered-aggregation example: of "x" (Normal, in the registry), "y"
(Abnormal) and "z" (Normal, in the registry), the filter "Normal" keeps exactly
"x" and "z". -/
theorem makeClusterInfos_filtered_witness :
    NoListingFails fleetEnv normalOnly fleet.Items ∧
    ∃ infos, (makeClusterInfos fleetEnv plainUnits fleet normalOnly).1 = Except.ok infos ∧
      infos.map (fun i => i.clusterMetaInfo.ClusterName) = ["x", "z"] :=
  ⟨by decide,
   (makeClusterInfos_filtered fleetEnv plainUnits fleet normalOnly (by decide)).elim
     (fun infos h => ⟨infos, h.1, h.2.1.trans (by decide)⟩)⟩

/-- C10: in `makeClusterInfos`, a live-data query is issued for a cluster only if
its metadata was fetched, it is present in the registry, its status is not
Abnormal and the prune flag is not set; and when the call returns its list,
live data was queried for every such cluster of the input, every info of such a
cluster carries the live data collected from its client, and every other info
of the result has the zero live-data section with no live-data query issued for
its cluster. -/
theorem makeClusterInfos_live_data (env : FleetEnv) (u : Units) (clusters : ClusterList)
    (opts : clusterInfoOpts) :
    (∀ name c, c ∈ (makeClusterInfos env u clusters opts).2 →
      isLiveDataCall name c = true →
        (∃ item ∈ clusters.Items, item.Name = name) ∧
        metadataFound env name = true ∧ inRegistry env name = true ∧
        reportedStatus env name ≠ ClusterAbnormal ∧ opts.pruneInfo = false) ∧
    (∀ infos, (makeClusterInfos env u clusters opts).1 = Except.ok infos →
      (∀ item ∈ clusters.Items,
        metadataFound env item.Name = true → inRegistry env item.Name = true →
        reportedStatus env item.Name ≠ ClusterAbnormal → opts.pruneInfo = false →
          Call.ListNodeMetrics item.Name ∈ (makeClusterInfos env u clusters opts).2) ∧
      (∀ i ∈ infos, collectsLiveData env opts i.clusterMetaInfo.ClusterName = true →
        ∃ ic, (env.registryGet i.clusterMetaInfo.ClusterName).1 = some ic ∧
          i.clusterLivedataInfo =
            (makeLivedataInfo ic.Client i.clusterMetaInfo.ClusterName opts u).1.1) ∧
      (∀ i ∈ infos, collectsLiveData env opts i.clusterMetaInfo.ClusterName = false →
        i.clusterLivedataInfo = clusterLivedataInfo.zero ∧
        ∀ c ∈ (makeClusterInfos env u clusters opts).2,
          isLiveDataCall i.clusterMetaInfo.ClusterName c = false)) := by
  have hsplit : ∀ name, collectsLiveData env opts name = true ↔
      (metadataFound env name = true ∧ inRegistry env name = true ∧
        reportedStatus env name ≠ ClusterAbnormal ∧ opts.pruneInfo = false) := by
    intro name
    simp [collectsLiveData, and_assoc]
  have honly : ∀ name c, c ∈ (makeClusterInfos env u clusters opts).2 →
      isLiveDataCall name c = true →
        (∃ item ∈ clusters.Items, item.Name = name) ∧
          collectsLiveData env opts name = true := by
    intro name c hc hlive
    rcases makeClusterInfosLoop_live_calls env u opts clusters.Items [] [] name c hc hlive
      with h | h
    · cases h
    · exact h
  refine ⟨fun name c hc hlive => ?_, fun infos hok => ?_⟩
  · obtain ⟨hitem, hcol⟩ := honly name c hc hlive
    exact ⟨hitem, (hsplit name).1 hcol⟩
  · obtain ⟨h1, h2⟩ := makeClusterInfosLoop_ok env u opts clusters.Items [] [] infos hok
    refine ⟨?_, ?_, ?_⟩
    · intro item hitem hm hr hs hp
      exact h1 item hitem ((hsplit item.Name).2 ⟨hm, hr, hs, hp⟩)
    · intro i hi hcol
      rcases h2 i hi with h | h
      · cases h
      · exact h.2 hcol
    · intro i hi hcol
      rcases h2 i hi with h | h
      · cases h
      · refine ⟨h.1 hcol, fun c hc => ?_⟩
        cases hl : isLiveDataCall i.clusterMetaInfo.ClusterName c with
        | false => rfl
        | true =>
          have := (honly _ c hc hl).2
          rw [hcol] at this
          cases this

/-- C10 on the fleet of the example without a status filter: live data is queried
for "x", which is in the registry and Normal, and never for "y", which is not
in the registry. -/
theorem makeClusterInfos_live_data_witness :
    Call.ListNodeMetrics "x" ∈
      (makeClusterInfos fleetEnv plainUnits fleet
        { statusFilter := "", nodeLabelSelector := "", pruneInfo := false }).2 ∧
    ∀ c ∈ (makeClusterInfos fleetEnv plainUnits fleet
        { statusFilter := "", nodeLabelSelector := "", pruneInfo := false }).2,
      isLiveDataCall "y" c = true → False := by
  have h := makeClusterInfos_live_data fleetEnv plainUnits fleet
    { statusFilter := "", nodeLabelSelector := "", pruneInfo := false }
  refine ⟨?_, ?_⟩
  · obtain ⟨out, tr, hl, _⟩ := makeClusterInfosLoop_filtered fleetEnv plainUnits
      { statusFilter := "", nodeLabelSelector := "", pruneInfo := false } fleet.Items
      (by decide) [] []
    have hok : (makeClusterInfos fleetEnv plainUnits fleet
        { statusFilter := "", nodeLabelSelector := "", pruneInfo := false }).1 =
        Except.ok ([] ++ out) := by
      unfold makeClusterInfos
      rw [hl]
    exact (h.2 _ hok).1 (clusterNamed "x" none) (by simp [fleet]) (by decide) (by decide)
      (by decide) rfl
  · intro c hc hlive
    have := (h.1 "y" c hc hlive).2.2.1
    revert this
    decide


/-! ## Relationship resolution -/

theorem isRelateWithLoop_iff (hncLabel depth : String) (nss : List Namespace) :
    isRelateWithLoop hncLabel depth nss = true ↔ carriesDepth hncLabel depth nss := by
  unfold carriesDepth
  induction nss with
  | nil => simp [isRelateWithLoop]
  | cons ns rest ih =>
    unfold isRelateWithLoop
    cases h : ns.Labels.lookup hncLabel with
    | none => simp [ih, h]
    | some d =>
      by_cases hd : d = depth
      · simp [hd, h]
      · simp [hd, h, ih]

/-- C14: `isRelateWith` returns true, with no error and without listing any
namespace, when the depth is the current-depth constant; for every other depth
it lists the namespaces once, returns the error of the listing (and false) when
the listing fails, and otherwise returns no error and true exactly when some
listed namespace carries the label `name ++ HncSuffix` with the value `depth`;
so it returns an error exactly when the listing it makes fails. -/
theorem isRelateWith_spec (k : HncConstants) (nsName : String) (cli : NamespaceCache)
    (depth : String) :
    (depth = k.HncCurrentDepth → isRelateWith k nsName cli depth = ((true, none), [])) ∧
    (depth ≠ k.HncCurrentDepth →
      (isRelateWith k nsName cli depth).2 = [CacheCall.ListNamespaces] ∧
      (∀ nss, cli.List = Except.ok nss →
        (isRelateWith k nsName cli depth).1.2 = none ∧
        ((isRelateWith k nsName cli depth).1.1 = true ↔
          carriesDepth (nsName ++ k.HncSuffix) depth nss)) ∧
      (∀ err, cli.List = Except.error err →
        (isRelateWith k nsName cli depth).1 = (false, some err)) ∧
      ((isRelateWith k nsName cli depth).1.2 ≠ none ↔ ∃ err, cli.List = Except.error err)) := by
  refine ⟨fun h => ?_, fun h => ?_⟩
  · simp [isRelateWith, h]
  · cases hl : cli.List with
    | error e => simp [isRelateWith, h, hl]
    | ok nss => simp [isRelateWith, h, hl, isRelateWithLoop_iff]

/-- C14 on the cluster "c1": at the current depth the answer is true without a
call, also on a cache whose listing fails; at depth 1 the project "p1" is
related, through the namespace "work", after one listing. -/
theorem isRelateWith_spec_witness :
    isRelateWith sampleConstants "p1" (withFailingList projectOnlyCluster.Cache) "0" =
      ((true, none), []) ∧
    (isRelateWith sampleConstants "p1" projectOnlyCluster.Cache "1").2 =
      [CacheCall.ListNamespaces] ∧
    (isRelateWith sampleConstants "p1" projectOnlyCluster.Cache "1").1.1 = true :=
  ⟨(isRelateWith_spec sampleConstants "p1" (withFailingList projectOnlyCluster.Cache) "0").1 rfl,
   ((isRelateWith_spec sampleConstants "p1" projectOnlyCluster.Cache "1").2 (by decide)).1,
   (((isRelateWith_spec sampleConstants "p1" projectOnlyCluster.Cache "1").2
      (by decide)).2.1 _ rfl).2.2 ⟨namespaceOf "work" [("p1.tree.hnc.x-k8s.io/depth", "1")],
        by simp, by decide⟩⟩

theorem isRelateWith_err_none (k : HncConstants) (nsName : String) (cli : NamespaceCache)
    (depth : String) (nss : List Namespace) (h : cli.List = Except.ok nss) :
    (isRelateWith k nsName cli depth).1.2 = none := by
  unfold isRelateWith
  by_cases hd : depth = k.HncCurrentDepth
  · simp [hd]
  · simp [hd, h]

/-- A pass of the loop body that does not return an error appends the name of the
cluster exactly when the cluster holds the namespace and the check of the label
examined last succeeds. -/
theorem getClustersByNamespaceBody_ok (k : HncConstants) (nsName : String)
    (cluster : FuzzyCluster) (clusterNames out : List String)
    (h : (getClustersByNamespaceBody k nsName cluster clusterNames).1 = Except.ok out) :
    out = clusterNames ++ if reportedRelated k nsName cluster then [cluster.Name] else [] := by
  unfold getClustersByNamespaceBody at h
  unfold reportedRelated relatedByLastLabel checkSucceeds
  cases hg : cluster.Cache.Get nsName with
  | error e =>
    cases e with
    | notFound => simp [hg, IsNotFound] at h; simp [h]
    | other msg => simp [hg, IsNotFound] at h
  | ok ns =>
    simp only [hg] at h ⊢
    obtain ⟨ot, ht⟩ : ∃ o : Option String, ns.Labels.lookup k.TenantLabel = o := ⟨_, rfl⟩
    obtain ⟨op, hp⟩ : ∃ o : Option String, ns.Labels.lookup k.ProjectLabel = o := ⟨_, rfl⟩
    simp only [ht, hp] at h ⊢
    cases ot with
    | none =>
      cases op with
      | none =>
        simp at h
        simp [h]
      | some p =>
        simp only at h ⊢
        obtain ⟨rp, hrp⟩ : ∃ r, isRelateWith k p cluster.Cache k.HncProjectDepth = r := ⟨_, rfl⟩
        simp only [hrp] at h ⊢
        obtain ⟨⟨bp, ep⟩, cp⟩ := rp
        cases ep with
        | some e => simp at h
        | none => cases bp <;> simp at h <;> simp [h]
    | some t =>
      simp only at h ⊢
      obtain ⟨rt, hrt⟩ : ∃ r, isRelateWith k t cluster.Cache k.HncTenantDepth = r := ⟨_, rfl⟩
      simp only [hrt] at h ⊢
      obtain ⟨⟨bt, et⟩, ct⟩ := rt
      cases et with
      | some e => simp at h
      | none =>
        cases op with
        | none =>
          simp only at h ⊢
          cases bt <;> simp at h <;> simp [h]
        | some p =>
          simp only at h ⊢
          obtain ⟨rp, hrp⟩ : ∃ r, isRelateWith k p cluster.Cache k.HncProjectDepth = r := ⟨_, rfl⟩
          simp only [hrp] at h ⊢
          obtain ⟨⟨bp, ep⟩, cp⟩ := rp
          cases ep with
          | some e => simp at h
          | none => cases bp <;> simp at h <;> simp [h]

/-- A pass of the loop body on a cluster on which no read fails returns no
error. -/
theorem getClustersByNamespaceBody_total (k : HncConstants) (nsName : String)
    (cluster : FuzzyCluster) (clusterNames : List String)
    (h : lookupsSucceed nsName cluster = true) :
    ∃ out, (getClustersByNamespaceBody k nsName cluster clusterNames).1 = Except.ok out := by
  unfold lookupsSucceed at h
  cases hl : cluster.Cache.List with
  | error e => simp [hl] at h
  | ok nss =>
    have herr := fun name depth => isRelateWith_err_none k name cluster.Cache depth nss hl
    unfold getClustersByNamespaceBody
    cases hg : cluster.Cache.Get nsName with
    | error e =>
      simp only [hg, hl, Bool.and_true] at h
      simp [hg, h]
    | ok ns =>
      simp only [hg]
      obtain ⟨ot, ht⟩ : ∃ o : Option String, ns.Labels.lookup k.TenantLabel = o := ⟨_, rfl⟩
      obtain ⟨op, hp⟩ : ∃ o : Option String, ns.Labels.lookup k.ProjectLabel = o := ⟨_, rfl⟩
      simp only [ht, hp]
      cases ot <;> cases op <;> simp only [herr] <;> split <;> exact ⟨_, rfl⟩

theorem getClustersByNamespaceLoop_cons (k : HncConstants) (nsName : String)
    (cluster : FuzzyCluster) (rest : List FuzzyCluster) (clusterNames : List String)
    (calls : List (String × CacheCall)) :
    getClustersByNamespaceLoop k nsName (cluster :: rest) clusterNames calls =
      match getClustersByNamespaceBody k nsName cluster clusterNames with
      | (Except.error err, issued) =>
        (Except.error err, calls ++ issued.map (fun c => (cluster.Name, c)))
      | (Except.ok clusterNames, issued) =>
        getClustersByNamespaceLoop k nsName rest clusterNames
          (calls ++ issued.map (fun c => (cluster.Name, c))) := rfl

theorem getClustersByNamespaceLoop_ok (k : HncConstants) (nsName : String)
    (clusters : List FuzzyCluster) (clusterNames : List String)
    (calls : List (String × CacheCall)) (out : List String)
    (h : (getClustersByNamespaceLoop k nsName clusters clusterNames calls).1 = Except.ok out) :
    out = clusterNames ++
      (clusters.filter (reportedRelated k nsName)).map (fun c => c.Name) := by
  induction clusters generalizing clusterNames calls with
  | nil =>
    simp only [getClustersByNamespaceLoop, Except.ok.injEq] at h
    simp [h]
  | cons cluster rest ih =>
    rw [getClustersByNamespaceLoop_cons] at h
    have hbody := getClustersByNamespaceBody_ok k nsName cluster clusterNames
    rcases hb : getClustersByNamespaceBody k nsName cluster clusterNames with ⟨res, issued⟩
    rw [hb] at h hbody
    cases res with
    | error err => simp at h
    | ok names2 =>
      have h2 := hbody names2 rfl
      have h3 := ih names2 _ h
      rw [h3, h2, List.filter_cons]
      cases reportedRelated k nsName cluster <;> simp

theorem getClustersByNamespaceLoop_total (k : HncConstants) (nsName : String)
    (clusters : List FuzzyCluster) (clusterNames : List String)
    (calls : List (String × CacheCall))
    (h : ∀ c ∈ clusters, lookupsSucceed nsName c = true) :
    ∃ out, (getClustersByNamespaceLoop k nsName clusters clusterNames calls).1 =
      Except.ok out := by
  induction clusters generalizing clusterNames calls with
  | nil => exact ⟨clusterNames, rfl⟩
  | cons cluster rest ih =>
    rw [getClustersByNamespaceLoop_cons]
    obtain ⟨names2, hn⟩ := getClustersByNamespaceBody_total k nsName cluster clusterNames
      (h cluster (List.mem_cons_self _ _))
    rcases hb : getClustersByNamespaceBody k nsName cluster clusterNames with ⟨res, issued⟩
    rw [hb] at hn
    simp only at hn
    subst hn
    exact ih names2 _ (fun c hc => h c (List.mem_cons_of_mem _ hc))

/-- C13, on the code: the namespace "team" of the cluster "c1" carries the tenant
label and the project label; the tenant check fails, the project check
succeeds, so the check does not succeed for every label present, and
`getClustersByNamespace` reports "c1". -/
theorem getClustersByNamespace_reports_on_project_check :
    (projectOnlyCluster.Cache.Get "team").toOption.map
        (fun ns => (ns.Labels.lookup sampleConstants.TenantLabel,
          ns.Labels.lookup sampleConstants.ProjectLabel)) =
      some (some "t1", some "p1") ∧
    (isRelateWith sampleConstants "t1" projectOnlyCluster.Cache
        sampleConstants.HncTenantDepth).1 = (false, none) ∧
    (isRelateWith sampleConstants "p1" projectOnlyCluster.Cache
        sampleConstants.HncProjectDepth).1 = (true, none) ∧
    (projectOnlyCluster.Cache.Get "team").toOption.map
        (relatedByEveryLabel sampleConstants projectOnlyCluster.Cache) = some false ∧
    (getClustersByNamespace sampleConstants [projectOnlyCluster] "team").1 =
      Except.ok ["c1"] := by
  refine ⟨by decide, by decide, by decide, by decide, ?_⟩
  rfl

/-- C13 as amended: when `getClustersByNamespace` returns its list, the list
holds, in the order of the snapshot, exactly the clusters that hold the
namespace and for which the relationship check of the label examined last
succeeds: the project check when the namespace carries the project label,
otherwise the tenant check when it carries the tenant label, and no check when
it carries neither; and it returns its list whenever no read on a cluster
fails. -/
theorem getClustersByNamespace_reports (k : HncConstants) (clusters : List FuzzyCluster)
    (nsName : String) :
    (∀ names, (getClustersByNamespace k clusters nsName).1 = Except.ok names →
      names = (clusters.filter (fun c =>
        match c.Cache.Get nsName with
        | Except.ok ns => relatedByLastLabel k c.Cache ns
        | Except.error _ => false)).map (fun c => c.Name)) ∧
    ((∀ c ∈ clusters, lookupsSucceed nsName c = true) →
      ∃ names, (getClustersByNamespace k clusters nsName).1 = Except.ok names) := by
  refine ⟨fun names h => ?_, fun h => ?_⟩
  · have := getClustersByNamespaceLoop_ok k nsName clusters [] [] names h
    simpa [reportedRelated] using this
  · exact getClustersByNamespaceLoop_total k nsName clusters [] [] h

/-- C13 as amended, on the cluster "c1": the call returns its list, and the list
is the one cluster, related to "team" by the project check. -/
theorem getClustersByNamespace_reports_witness :
    ∃ names, (getClustersByNamespace sampleConstants [projectOnlyCluster] "team").1 =
        Except.ok names ∧ names = ["c1"] :=
  ((getClustersByNamespace_reports sampleConstants [projectOnlyCluster] "team").2
      (by decide)).elim
    (fun names h => ⟨names, h,
      ((getClustersByNamespace_reports sampleConstants [projectOnlyCluster] "team").1
        names h).trans (by decide)⟩)

/-! ## Live data of a cluster -/

theorem makeLivedataInfo_err_some (cli : Client) (cluster : String) (opts : clusterInfoOpts)
    (u : Units) (h : listingsSucceed cli opts = false) :
    ∃ e, (makeLivedataInfo cli cluster opts u).1.2 = some e := by
  unfold listingsSucceed at h
  unfold makeLivedataInfo
  cases hn : cli.Nodes opts.nodeLabelSelector with
  | error e => exact ⟨_, rfl⟩
  | ok nodes =>
    cases hs : cli.Namespaces with
    | error e => exact ⟨_, rfl⟩
    | ok ns =>
      cases hp : cli.Pods with
      | error e => exact ⟨_, rfl⟩
      | ok pods => simp [hn, hs, hp] at h

/-- The loop returns an error and no list as soon as the listings fail on an item
for which live data is collected. -/
theorem makeClusterInfosLoop_aborts (env : FleetEnv) (u : Units) (opts : clusterInfoOpts)
    (items : List Cluster) (infos : List clusterInfo) (calls : List Call)
    (h : ∃ item ∈ items, collectsLiveData env opts item.Name = true ∧
      listingsSucceedFor env opts item.Name = false) :
    ∃ err, (makeClusterInfosLoop env u opts items infos calls).1 = Except.error err := by
  induction items generalizing infos calls with
  | nil =>
    obtain ⟨item, hmem, _⟩ := h
    cases hmem
  | cons item rest ih =>
    obtain ⟨bad, hmem, hcol, hfail⟩ := h
    rw [makeClusterInfosLoop_cons]
    rcases makeClusterInfosBody_cases env u opts item infos with
      ⟨hf, hb⟩ | ⟨hf, hnc, info, _, _, _, hb⟩ | ⟨hc, ic, md, hg, _, _, hb⟩
    · rw [hb]
      rcases List.mem_cons.1 hmem with rfl | hrest
      · simp [collectsLiveData, hf] at hcol
      · exact ih _ _ ⟨bad, hrest, hcol, hfail⟩
    · rw [hb]
      rcases List.mem_cons.1 hmem with rfl | hrest
      · rw [hnc] at hcol
        cases hcol
      · exact ih _ _ ⟨bad, hrest, hcol, hfail⟩
    · rw [hb]
      cases hl : (makeLivedataInfo ic.Client item.Name opts u).1.2 with
      | some err => exact ⟨err, rfl⟩
      | none =>
        rcases List.mem_cons.1 hmem with rfl | hrest
        · have hls : listingsSucceed ic.Client opts = false := by
            simpa [listingsSucceedFor, hg] using hfail
          obtain ⟨e, he⟩ := makeLivedataInfo_err_some ic.Client bad.Name opts u hls
          rw [he] at hl
          cases hl
        · exact ih _ _ ⟨bad, hrest, hcol, hfail⟩

/-- C11: if the node, namespace or pod listing fails for some cluster of the
input for which live data is collected, `makeClusterInfos` returns an error and
no list, for every status filter and whatever was collected for the clusters
before. -/
theorem makeClusterInfos_aborts (env : FleetEnv) (u : Units) (clusters : ClusterList)
    (opts : clusterInfoOpts)
    (h : ∃ item ∈ clusters.Items, collectsLiveData env opts item.Name = true ∧
      listingsSucceedFor env opts item.Name = false) :
    ∃ err, (makeClusterInfos env u clusters opts).1 = Except.error err :=
  makeClusterInfosLoop_aborts env u opts clusters.Items [] [] h

/-- C11 on the fleet whose cluster "z" cannot list its pods: with the filter
"Normal" and with no filter the call returns an error, although the info of
"x" had been collected. -/
theorem makeClusterInfos_aborts_witness :
    (∃ err, (makeClusterInfos brokenFleetEnv plainUnits fleet normalOnly).1 =
      Except.error err) ∧
    (∃ err, (makeClusterInfos brokenFleetEnv plainUnits fleet
      { statusFilter := "", nodeLabelSelector := "", pruneInfo := false }).1 =
      Except.error err) :=
  ⟨makeClusterInfos_aborts brokenFleetEnv plainUnits fleet normalOnly
     ⟨clusterNamed "z" none, by simp [fleet], by decide, by decide⟩,
   makeClusterInfos_aborts brokenFleetEnv plainUnits fleet
     { statusFilter := "", nodeLabelSelector := "", pruneInfo := false }
     ⟨clusterNamed "z" none, by simp [fleet], by decide, by decide⟩⟩

theorem foldl_preserves {α β γ : Type} (f : α → β → α) (p : α → γ)
    (hf : ∀ a b, p (f a b) = p a) (xs : List β) (a : α) :
    p (xs.foldl f a) = p a := by
  induction xs generalizing a with
  | nil => rfl
  | cons x xs ih => rw [List.foldl_cons, ih, hf]

theorem metricsUsage_addPodUsage (u : Units) (nodesName : List String)
    (info : clusterLivedataInfo) (pod : Pod) :
    metricsUsage (addPodUsage u nodesName info pod) = metricsUsage info := by
  unfold addPodUsage
  by_cases h : pod.Spec.NodeName ∈ nodesName ∧ pod.Status.Phase ≠ PodSucceeded ∧
      pod.Status.Phase ≠ PodFailed
  · rw [if_pos h]
    rfl
  · rw [if_neg h]

/-- C12: for every cluster, when the node-metrics query fails and the node,
namespace and pod listings succeed, `makeLivedataInfo` returns no error, the
fields UsedCPU, UsedMem, UsedStorage and UsedStorageEphemeral are zero, and the
live data as a whole, every other field included, is what it returns when the
metrics query succeeds with an empty list. -/
theorem makeLivedataInfo_metrics_failure (cli : Client) (cluster : String)
    (opts : clusterInfoOpts) (u : Units) (err : String)
    (hm : cli.NodeMetricses opts.nodeLabelSelector = Except.error err)
    (hl : listingsSucceed cli opts = true) :
    (makeLivedataInfo cli cluster opts u).1.2 = none ∧
    (makeLivedataInfo cli cluster opts u).1.1.UsedCPU = 0 ∧
    (makeLivedataInfo cli cluster opts u).1.1.UsedMem = 0 ∧
    (makeLivedataInfo cli cluster opts u).1.1.UsedStorage = 0 ∧
    (makeLivedataInfo cli cluster opts u).1.1.UsedStorageEphemeral = 0 ∧
    (makeLivedataInfo cli cluster opts u).1.1 =
      (makeLivedataInfo { cli with NodeMetricses := fun _ => Except.ok [] }
        cluster opts u).1.1 := by
  have hnone := makeLivedataInfo_err_none cli cluster opts u hl
  have husage : metricsUsage (makeLivedataInfo cli cluster opts u).1.1 = (0, 0, 0, 0) := by
    unfold listingsSucceed at hl
    unfold makeLivedataInfo
    cases hn : cli.Nodes opts.nodeLabelSelector with
    | error e => simp [hn] at hl
    | ok nodes =>
      cases hs : cli.Namespaces with
      | error e => simp [hs] at hl
      | ok ns =>
        cases hp : cli.Pods with
        | error e => simp [hp] at hl
        | ok pods =>
          simp only [hm]
          rw [foldl_preserves _ metricsUsage (metricsUsage_addPodUsage u _)]
          show metricsUsage (List.foldl (addNodeCapacity u) _ nodes) = _
          rw [foldl_preserves (addNodeCapacity u) metricsUsage (fun a b => rfl)]
          rfl
  have hsame : (makeLivedataInfo cli cluster opts u).1.1 =
      (makeLivedataInfo { cli with NodeMetricses := fun _ => Except.ok [] }
        cluster opts u).1.1 := by
    unfold makeLivedataInfo
    simp only [hm, List.foldl_nil]
  simp only [metricsUsage, Prod.mk.injEq] at husage
  exact ⟨hnone, husage.1, husage.2.1, husage.2.2.1, husage.2.2.2, hsame⟩

/-- C12 on the client whose metrics query fails: no error, zero usage, and the
node count of the one listed node. -/
theorem makeLivedataInfo_metrics_failure_witness :
    (makeLivedataInfo usageClient "c1"
      { statusFilter := "", nodeLabelSelector := "", pruneInfo := false } tallyUnits).1.2 = none ∧
    (makeLivedataInfo usageClient "c1"
      { statusFilter := "", nodeLabelSelector := "", pruneInfo := false } tallyUnits).1.1.UsedCPU
      = 0 ∧
    (makeLivedataInfo usageClient "c1"
      { statusFilter := "", nodeLabelSelector := "", pruneInfo := false }
        tallyUnits).1.1.NodeCount = 1 :=
  ⟨(makeLivedataInfo_metrics_failure usageClient "c1"
      { statusFilter := "", nodeLabelSelector := "", pruneInfo := false } tallyUnits
      "metrics unavailable" rfl (by decide)).1,
   (makeLivedataInfo_metrics_failure usageClient "c1"
      { statusFilter := "", nodeLabelSelector := "", pruneInfo := false } tallyUnits
      "metrics unavailable" rfl (by decide)).2.1,
   by decide⟩

theorem wrapInt_add_left (a b : Int) : wrapInt (wrapInt a + b) = wrapInt (a + b) := by
  unfold wrapInt
  omega

theorem wrapInt_of_inRange (x : Int) (h : InIntRange x) : wrapInt x = x := by
  unfold InIntRange at h
  unfold wrapInt
  omega

theorem foldl_addInt_wrapInt (xs : List Int) (a : Int) :
    xs.foldl addInt (wrapInt a) = wrapInt (a + xs.sum) := by
  induction xs generalizing a with
  | nil => simp
  | cons x xs ih =>
    rw [List.foldl_cons, List.sum_cons]
    show List.foldl addInt (wrapInt (wrapInt a + x)) xs = _
    rw [ih, add_assoc, wrapInt_add_left]

/-- The Go sum of a list is the exact sum reduced into the range of `int`. -/
theorem sumInt_eq_wrapInt (xs : List Int) : sumInt xs = wrapInt xs.sum := by
  have h := foldl_addInt_wrapInt xs 0
  have h0 : wrapInt 0 = 0 := by decide
  rw [h0, zero_add] at h
  exact h

theorem workloadUsage_foldl_addPodUsage (u : Units) (nodes : List Node) (pods : List Pod)
    (info : clusterLivedataInfo) :
    workloadUsage (pods.foldl (addPodUsage u (nodes.map (fun n => n.Name))) info) =
      (((countedPods nodes pods).map (podCPURequest u)).foldl addInt info.UsedCPURequest,
       ((countedPods nodes pods).map (podCPULimit u)).foldl addInt info.UsedCPULimit,
       ((countedPods nodes pods).map (podMemRequest u)).foldl addInt info.UsedMemRequest,
       ((countedPods nodes pods).map (podMemLimit u)).foldl addInt info.UsedMemLimit) := by
  unfold countedPods
  induction pods generalizing info with
  | nil => simp [workloadUsage]
  | cons pod pods ih =>
    rw [List.foldl_cons, ih, List.filter_cons]
    by_cases h : pod.Spec.NodeName ∈ nodes.map (fun n => n.Name) ∧
        pod.Status.Phase ≠ PodSucceeded ∧ pod.Status.Phase ≠ PodFailed
    · have hc : countsTowardsUsage nodes pod = true := by
        simp only [countsTowardsUsage, Bool.and_eq_true, decide_eq_true_eq]
        exact ⟨⟨h.1, h.2.1⟩, h.2.2⟩
      unfold addPodUsage
      rw [if_pos h, if_pos hc]
      simp only [List.map_cons, List.foldl_cons, podCPURequest, podCPULimit, podMemRequest,
        podMemLimit]
    · have hc : ¬ countsTowardsUsage nodes pod = true := by
        simp only [countsTowardsUsage, Bool.and_eq_true, decide_eq_true_eq]
        exact fun hh => h ⟨hh.1.1, hh.1.2, hh.2⟩
      unfold addPodUsage
      rw [if_neg h, if_neg hc]

/-- C15: when the node, namespace and pod listings succeed, the fields
UsedCPURequest, UsedCPULimit, UsedMemRequest and UsedMemLimit of
`makeLivedataInfo` are the sums, added up as Go `int` values, of the effective
requests and limits of `podRequestsAndLimits`, each in the unit of the live
data, over exactly the listed pods whose node name is the name of a listed node
and whose phase is neither Succeeded nor Failed; every other pod contributes
nothing.  Each field is the exact sum whenever the exact sum is in the range of
`int`. -/
theorem makeLivedataInfo_workload_usage (cli : Client) (cluster : String)
    (opts : clusterInfoOpts) (u : Units) (nodes : List Node) (nss : List Namespace)
    (pods : List Pod)
    (hn : cli.Nodes opts.nodeLabelSelector = Except.ok nodes)
    (hs : cli.Namespaces = Except.ok nss) (hp : cli.Pods = Except.ok pods) :
    ((makeLivedataInfo cli cluster opts u).1.1.UsedCPURequest =
        sumInt ((countedPods nodes pods).map (podCPURequest u)) ∧
     (makeLivedataInfo cli cluster opts u).1.1.UsedCPULimit =
        sumInt ((countedPods nodes pods).map (podCPULimit u)) ∧
     (makeLivedataInfo cli cluster opts u).1.1.UsedMemRequest =
        sumInt ((countedPods nodes pods).map (podMemRequest u)) ∧
     (makeLivedataInfo cli cluster opts u).1.1.UsedMemLimit =
        sumInt ((countedPods nodes pods).map (podMemLimit u))) ∧
    ((InIntRange ((countedPods nodes pods).map (podCPURequest u)).sum →
        (makeLivedataInfo cli cluster opts u).1.1.UsedCPURequest =
          ((countedPods nodes pods).map (podCPURequest u)).sum) ∧
     (InIntRange ((countedPods nodes pods).map (podCPULimit u)).sum →
        (makeLivedataInfo cli cluster opts u).1.1.UsedCPULimit =
          ((countedPods nodes pods).map (podCPULimit u)).sum) ∧
     (InIntRange ((countedPods nodes pods).map (podMemRequest u)).sum →
        (makeLivedataInfo cli cluster opts u).1.1.UsedMemRequest =
          ((countedPods nodes pods).map (podMemRequest u)).sum) ∧
     (InIntRange ((countedPods nodes pods).map (podMemLimit u)).sum →
        (makeLivedataInfo cli cluster opts u).1.1.UsedMemLimit =
          ((countedPods nodes pods).map (podMemLimit u)).sum)) := by
  have hzero : ∀ start : clusterLivedataInfo, workloadUsage start = (0, 0, 0, 0) →
      workloadUsage (pods.foldl (addPodUsage u (nodes.map (fun n => n.Name)))
        { (nodes.foldl (addNodeCapacity u) { start with NodeCount := (nodes.length : Int) })
          with NamespaceCount := (nss.length : Int) }) =
      (sumInt ((countedPods nodes pods).map (podCPURequest u)),
       sumInt ((countedPods nodes pods).map (podCPULimit u)),
       sumInt ((countedPods nodes pods).map (podMemRequest u)),
       sumInt ((countedPods nodes pods).map (podMemLimit u))) := by
    intro start hstart
    have hcap : workloadUsage
        (nodes.foldl (addNodeCapacity u) { start with NodeCount := (nodes.length : Int) }) =
        (0, 0, 0, 0) := by
      rw [foldl_preserves (addNodeCapacity u) workloadUsage (fun a b => rfl)]
      exact hstart
    rw [workloadUsage_foldl_addPodUsage]
    simp only [workloadUsage, Prod.mk.injEq] at hcap
    simp only [hcap.1, hcap.2.1, hcap.2.2.1, hcap.2.2.2, sumInt]
  have hmain : workloadUsage (makeLivedataInfo cli cluster opts u).1.1 =
      (sumInt ((countedPods nodes pods).map (podCPURequest u)),
       sumInt ((countedPods nodes pods).map (podCPULimit u)),
       sumInt ((countedPods nodes pods).map (podMemRequest u)),
       sumInt ((countedPods nodes pods).map (podMemLimit u))) := by
    unfold makeLivedataInfo
    simp only [hn, hs, hp]
    cases hmc : cli.NodeMetricses opts.nodeLabelSelector with
    | error e => exact hzero _ rfl
    | ok nodesMc =>
      refine hzero _ ?_
      rw [foldl_preserves (addNodeUsage u) workloadUsage (fun a b => rfl)]
      rfl
  simp only [workloadUsage, Prod.mk.injEq] at hmain
  refine ⟨hmain, ?_, ?_, ?_, ?_⟩
  · intro h
    rw [hmain.1, sumInt_eq_wrapInt, wrapInt_of_inRange _ h]
  · intro h
    rw [hmain.2.1, sumInt_eq_wrapInt, wrapInt_of_inRange _ h]
  · intro h
    rw [hmain.2.2.1, sumInt_eq_wrapInt, wrapInt_of_inRange _ h]
  · intro h
    rw [hmain.2.2.2, sumInt_eq_wrapInt, wrapInt_of_inRange _ h]

/-- C15 on the client with the node "n1": of the four listed pods only the
running pod on "n1" counts; the succeeded pod, the pod on the unlisted node
"n2" and the pending pod without a node contribute nothing.  On the client
whose two pods request 5000000000000000000 millicores each, the cpu request is
the Go sum of the two, which has wrapped around. -/
theorem makeLivedataInfo_workload_usage_witness :
    (usageClient.Pods.toOption.map
      (fun pods => (countedPods
        [{ Name := "n1", Capacity := resourceList [("cpu", 4000)] }] pods).map
          (fun p => p.Name))) = some ["a"] ∧
    workloadUsage (makeLivedataInfo usageClient "c1"
      { statusFilter := "", nodeLabelSelector := "", pruneInfo := false } tallyUnits).1.1 =
      (100, 200, 30, 40) ∧
    (makeLivedataInfo overflowClient "c1"
      { statusFilter := "", nodeLabelSelector := "", pruneInfo := false }
        tallyUnits).1.1.UsedCPURequest = -8446744073709551616 := by
  have h := makeLivedataInfo_workload_usage usageClient "c1"
    { statusFilter := "", nodeLabelSelector := "", pruneInfo := false } tallyUnits
    _ _ _ rfl rfl rfl
  have h2 := makeLivedataInfo_workload_usage overflowClient "c1"
    { statusFilter := "", nodeLabelSelector := "", pruneInfo := false } tallyUnits
    _ _ _ rfl rfl rfl
  refine ⟨by decide, ?_, h2.1.1.trans (by decide)⟩
  simp only [workloadUsage, Prod.mk.injEq]
  exact ⟨h.2.1 (by decide), h.2.2.1 (by decide), h.2.2.2.1 (by decide),
    h.2.2.2.2 (by decide)⟩

end KubeCube
